import Mathlib

set_option maxRecDepth 8192

/-!
Shallow embedding of the event-to-frame aggregation pipeline of
`src/main.go` (`ParseDemo`).  The decoder (demoinfocs) is external: each
registered handler becomes one arm of a `step` function over an explicit
`ParserState`, and every quantity the handler reads from the decoder
(`p.GameState()`, event fields) is carried on the event itself.  Go `int`
and `int64` are modelled by `Int` (the counters and ticks involved never
approach the 64-bit range), `uint64` SteamIDs by `Nat`, and `float64`
coordinates / tick rates by `ℚ`.  Go maps with zero-value defaults
(`playerStats` via `getStats`, `rosterMap`) are modelled as total
functions with the zero default.
-/

namespace CS2Viewer

/-- `common.Team` as far as the pipeline inspects it: the code only ever
compares against `TeamCounterTerrorists` and `TeamTerrorists`. -/
inductive Team where
  | CT
  | T
  | Other
deriving DecidableEq, Repr

/-- `WeaponData` from main.go. -/
structure WeaponData where
  name : String
  wclass : String
deriving DecidableEq, Repr

/-- One weapon as read off the decoder in the FrameDone handler:
`w.String()`, `fmt.Sprintf("%v", w.Class())`, and the `w.Type == common.EqBomb`
test. -/
structure LiveWeapon where
  name : String
  wclass : String
  isBomb : Bool
deriving DecidableEq, Repr

/-- A participant as read from `gs.Participants().Playing()` in the
RoundStart handler (roster build): SteamID64, Name, Team. -/
structure Participant where
  steamID : Nat
  name : String
  team : Team
deriving DecidableEq, Repr

/-- The per-player live state the FrameDone handler reads from the decoder. -/
structure LivePlayer where
  steamID : Nat
  name : String
  team : Team
  isAlive : Bool
  x : ℚ
  y : ℚ
  z : ℚ
  rotation : ℚ
  hp : Int
  money : Int
  armor : Int
  hasHelmet : Bool
  hasDefuseKit : Bool
  weapons : List LiveWeapon
  activeWeapon : Option String
  isBlinded : Bool
  flashMs : Int
deriving DecidableEq, Repr

/-- `PlayerData` from main.go. -/
structure PlayerData where
  id : Nat
  name : String
  team : String
  isAlive : Bool
  x : ℚ
  y : ℚ
  z : ℚ
  rotation : ℚ
  hp : Int
  money : Int
  armor : Int
  hasHelmet : Bool
  hasDefuseKit : Bool
  hasBomb : Bool
  activeWeapon : String
  weapons : List WeaponData
  kills : Int
  deaths : Int
  assists : Int
  hs : Int
  isFlashed : Bool
  flashMs : Int
  rosterIndex : Int
deriving DecidableEq, Repr

/-- `KillEvent` from main.go. -/
structure KillEvent where
  tick : Int
  killerID : Nat
  victimID : Nat
  assisterID : Nat
  isHeadshot : Bool
  weapon : String
deriving DecidableEq, Repr

/-- `GrenadeEffect` from main.go.  `type_` is the Go `Type` string field
("SMOKE", "FLASH", "HE", "MOLOTOV"). -/
structure GrenadeEffect where
  id : Int
  entityID : Int
  type_ : String
  x : ℚ
  y : ℚ
  z : ℚ
  startTick : Int
  endTick : Int
  flashedCT : Int
  flashedT : Int
deriving DecidableEq, Repr

/-- `BombData` from main.go. -/
structure BombData where
  x : ℚ
  y : ℚ
  z : ℚ
  isPlanted : Bool
  carrierID : Nat
deriving DecidableEq, Repr

/-- Bomb state read from `gameState.Bomb()` in the FrameDone handler. -/
structure BombInput where
  x : ℚ
  y : ℚ
  z : ℚ
  carrier : Option Nat
deriving DecidableEq, Repr

/-- `WeaponFire` from main.go. -/
structure WeaponFire where
  playerID : Nat
  weapon : String
deriving DecidableEq, Repr

/-- `ProjectileData` from main.go (read verbatim off the decoder at each
sampled frame). -/
structure ProjectileData where
  id : Int
  type_ : String
  x : ℚ
  y : ℚ
  z : ℚ
deriving DecidableEq, Repr

/-- `FrameData` from main.go. -/
structure FrameData where
  tick : Int
  players : List PlayerData
  grenades : List GrenadeEffect
  projectiles : List ProjectileData
  fires : List WeaponFire
  bomb : BombData
deriving DecidableEq, Repr

/-- `RoundData` from main.go.  Go zero values: scores 0, winningTeam "",
freezeTimeTick 0. -/
structure RoundData where
  number : Int
  tick : Int
  ctScore : Int
  tScore : Int
  winningTeam : String
  freezeTimeTick : Int
deriving DecidableEq, Repr

/-- The `Stats` struct local to `ParseDemo`. -/
structure Stats where
  kills : Int
  deaths : Int
  assists : Int
  hs : Int
deriving DecidableEq, Repr

/-- `MatchData` from main.go. -/
structure MatchData where
  mapName : String
  tickRate : ℚ
  originalTickRate : ℚ
  frames : List FrameData
  rounds : List RoundData
  kills : List KillEvent
  ctScore : Int
  tScore : Int
  matchStartTick : Int
deriving DecidableEq, Repr

/-- One decoder callback, carrying everything the corresponding Go handler
reads from the event and from `p.GameState()` at that moment. -/
inductive DemoEvent where
  | roundEnd (winner : Team) (rawCT rawT : Int)
  | kill (killer victim assister : Option Nat) (headshot : Bool) (tick : Int)
      (weapon : String)
  | weaponFire (shooter : Option Nat) (weapon : String)
  | playerFlashed (team : Team)
  | smokeStart (entity : Option Int) (x y z : ℚ) (tick : Int)
  | smokeExpired (entity : Option Int) (tick : Int)
  | fireGrenadeStart (entity : Option Int) (x y z : ℚ) (tick : Int)
  | fireGrenadeExpired (entity : Option Int) (tick : Int)
  | flashExplode (x y z : ℚ) (tick : Int)
  | heExplode (x y z : ℚ) (tick : Int)
  | bombPlanted
  | bombDefused
  | bombExplode
  | roundStart (isMatchStarted : Bool) (tick : Int) (rawCT rawT : Int)
      (playing : List Participant)
  | freezetimeEnd (tick : Int)
  | frameDone (tick : Int) (playing : List LivePlayer) (bomb : BombInput)
      (projectiles : List ProjectileData)
deriving DecidableEq, Repr

/-- All the mutable locals of `ParseDemo` that the handlers share. -/
structure ParserState where
  frames : List FrameData
  rounds : List RoundData
  killEvents : List KillEvent
  ctScore : Int
  tScore : Int
  baseCTScore : Int
  baseTScore : Int
  matchStartTick : Int
  matchStarted : Bool
  playerStats : Nat → Stats
  rosterMap : Nat → Int
  rosterBuilt : Bool
  activeEffects : List GrenadeEffect
  effectIDCounter : Int
  isBombPlanted : Bool
  currentFires : List WeaponFire
  currentTickFlashIDs : List Int
  currentTickCount : Int

/-- Initial values of the locals of `ParseDemo`. -/
def initState : ParserState where
  frames := []
  rounds := []
  killEvents := []
  ctScore := 0
  tScore := 0
  baseCTScore := 0
  baseTScore := 0
  matchStartTick := -1
  matchStarted := false
  playerStats := fun _ => ⟨0, 0, 0, 0⟩
  rosterMap := fun _ => 0
  rosterBuilt := false
  activeEffects := []
  effectIDCounter := 0
  isBombPlanted := false
  currentFires := []
  currentTickFlashIDs := []
  currentTickCount := 0

/-- `smokeDurationTicks := int(18.0 * 64.0)`. -/
def smokeDurationTicks : Int := 1152

/-- `molotovDurationTicks := int(7.0 * 64.0)`. -/
def molotovDurationTicks : Int := 448

/-- `flashDurationTicks := 32`. -/
def flashDurationTicks : Int := 32

/-- `tickSkip := 4`. -/
def tickSkip : Int := 4

/-- Point update of a zero-defaulted Go map `map[uint64]*Stats` /
`map[uint64]int`. -/
def upd {β : Type} (f : Nat → β) (k : Nat) (v : β) : Nat → β :=
  fun x => if x = k then v else f x

/-- Mutation of `rounds[len(rounds)-1]` guarded by `len(rounds) > 0`. -/
def updateLastRound : List RoundData → (RoundData → RoundData) → List RoundData
  | [], _ => []
  | [r], f => [f r]
  | r :: rs, f => r :: updateLastRound rs f

/-- The two assignment loops `for i, player := range ctPlayers
{ rosterMap[player.SteamID64] = i + 1 }` (base 1) and the T loop (base 6). -/
def assignSlots (m : Nat → Int) : List Participant → Int → (Nat → Int)
  | [], _ => m
  | p :: ps, base => assignSlots (upd m p.steamID base) ps (base + 1)

/-- Go's `sort.Slice(players, func(i, j) { return players[i].Name <
players[j].Name })`: for the slice lengths in scope (a team roster,
< 12 entries) Go's sort runs plain insertion sort, which is the stable
sort by name modelled here by `List.insertionSort` with the reflexive
name order. -/
def sortByName (ps : List Participant) : List Participant :=
  List.insertionSort (fun a b => a.name ≤ b.name) ps

/-- The body of the `events.Kill` handler: the three independently guarded
stat increments. -/
def applyKillStats (stats : Nat → Stats) (killer victim assister : Option Nat)
    (headshot : Bool) : Nat → Stats :=
  let st1 := match killer with
    | some k =>
        let s0 := stats k
        upd stats k { s0 with
          kills := s0.kills + 1
          hs := s0.hs + (if headshot then 1 else 0) }
    | none => stats
  let st2 := match victim with
    | some v =>
        let s0 := st1 v
        upd st1 v { s0 with deaths := s0.deaths + 1 }
    | none => st1
  match assister with
  | some a =>
      let s0 := st2 a
      upd st2 a { s0 with assists := s0.assists + 1 }
  | none => st2

/-- The per-player snapshot assembly inside the FrameDone handler. -/
def mkPlayerData (s : ParserState) (pl : LivePlayer) : PlayerData :=
  let teamName := if pl.team = Team.T then "T"
    else if pl.team = Team.CT then "CT" else "SPECTATOR"
  let hasBomb := pl.weapons.any (fun w => w.isBomb)
  let weapons := pl.weapons.map (fun w => WeaponData.mk w.name w.wclass)
  let stats := s.playerStats pl.steamID
  { id := pl.steamID
    name := pl.name
    team := teamName
    isAlive := pl.isAlive
    x := pl.x
    y := pl.y
    z := pl.z
    rotation := pl.rotation
    hp := pl.hp
    money := pl.money
    armor := pl.armor
    hasHelmet := pl.hasHelmet
    hasDefuseKit := pl.hasDefuseKit
    hasBomb := hasBomb
    activeWeapon := pl.activeWeapon.getD ""
    weapons := weapons
    kills := stats.kills
    deaths := stats.deaths
    assists := stats.assists
    hs := stats.hs
    isFlashed := pl.isBlinded
    flashMs := pl.flashMs
    rosterIndex := s.rosterMap pl.steamID }

/-- One decoder callback applied to the shared state: each arm is the body
of the corresponding `p.RegisterEventHandler` closure in `ParseDemo`. -/
def step (s : ParserState) : DemoEvent → ParserState
  | .roundEnd winner rawCT rawT =>
      let ct := if s.matchStarted then rawCT - s.baseCTScore else s.ctScore
      let t := if s.matchStarted then rawT - s.baseTScore else s.tScore
      let w := if winner = Team.CT then "CT"
        else if winner = Team.T then "T" else ""
      { s with
        ctScore := ct
        tScore := t
        rounds := updateLastRound s.rounds
          (fun r => { r with ctScore := ct, tScore := t, winningTeam := w }) }
  | .kill killer victim assister headshot tick weapon =>
      let ke : KillEvent :=
        { tick := tick
          killerID := killer.getD 0
          victimID := victim.getD 0
          assisterID := assister.getD 0
          isHeadshot := headshot
          weapon := weapon }
      { s with
        playerStats := applyKillStats s.playerStats killer victim assister headshot
        killEvents := s.killEvents ++ [ke] }
  | .weaponFire shooter weapon =>
      match shooter with
      | some sid =>
          { s with currentFires := s.currentFires ++ [⟨sid, weapon⟩] }
      | none => s
  | .playerFlashed team =>
      { s with
        activeEffects := s.currentTickFlashIDs.foldl (fun effs fid =>
          effs.map (fun eff =>
            if eff.id = fid then
              if team = Team.CT then { eff with flashedCT := eff.flashedCT + 1 }
              else if team = Team.T then { eff with flashedT := eff.flashedT + 1 }
              else eff
            else eff)) s.activeEffects }
  | .smokeStart entity x y z tick =>
      let c := s.effectIDCounter + 1
      { s with
        effectIDCounter := c
        activeEffects := s.activeEffects ++
          [{ id := c, entityID := entity.getD (-1), type_ := "SMOKE"
             x := x, y := y, z := z
             startTick := tick, endTick := tick + smokeDurationTicks
             flashedCT := 0, flashedT := 0 }] }
  | .smokeExpired entity tick =>
      match entity with
      | some eid =>
          { s with
            activeEffects := s.activeEffects.map (fun eff =>
              if eff.entityID = eid ∧ eff.type_ = "SMOKE" then
                { eff with endTick := tick }
              else eff) }
      | none => s
  | .fireGrenadeStart entity x y z tick =>
      let c := s.effectIDCounter + 1
      { s with
        effectIDCounter := c
        activeEffects := s.activeEffects ++
          [{ id := c, entityID := entity.getD (-1), type_ := "MOLOTOV"
             x := x, y := y, z := z
             startTick := tick, endTick := tick + molotovDurationTicks
             flashedCT := 0, flashedT := 0 }] }
  | .fireGrenadeExpired entity tick =>
      match entity with
      | some eid =>
          { s with
            activeEffects := s.activeEffects.map (fun eff =>
              if eff.entityID = eid ∧ eff.type_ = "MOLOTOV" then
                { eff with endTick := tick }
              else eff) }
      | none => s
  | .flashExplode x y z tick =>
      let c := s.effectIDCounter + 1
      { s with
        effectIDCounter := c
        activeEffects := s.activeEffects ++
          [{ id := c, entityID := 0, type_ := "FLASH"
             x := x, y := y, z := z
             startTick := tick, endTick := tick + flashDurationTicks
             flashedCT := 0, flashedT := 0 }]
        currentTickFlashIDs := s.currentTickFlashIDs ++ [c] }
  | .heExplode x y z tick =>
      let c := s.effectIDCounter + 1
      { s with
        effectIDCounter := c
        activeEffects := s.activeEffects ++
          [{ id := c, entityID := 0, type_ := "HE"
             x := x, y := y, z := z
             startTick := tick, endTick := tick + 20
             flashedCT := 0, flashedT := 0 }] }
  | .bombPlanted => { s with isBombPlanted := true }
  | .bombDefused => { s with isBombPlanted := false }
  | .bombExplode => { s with isBombPlanted := false }
  | .roundStart isMatchStarted tick rawCT rawT playing =>
      if isMatchStarted = false then s
      else
        let s1 :=
          if s.matchStarted then s
          else
            let s' := { s with
              matchStarted := true
              matchStartTick := tick
              baseCTScore := rawCT
              baseTScore := rawT
              ctScore := 0
              tScore := 0 }
            if s'.rosterBuilt then s'
            else
              let ctPlayers := playing.filter (fun p => p.team = Team.CT)
              let tPlayers := playing.filter (fun p => p.team = Team.T)
              let ctSorted := sortByName ctPlayers
              let tSorted := sortByName tPlayers
              let rm := assignSlots (assignSlots s'.rosterMap ctSorted 1) tSorted 6
              { s' with rosterMap := rm, rosterBuilt := true }
        { s1 with
          rounds := s1.rounds ++
            [{ number := (s1.rounds.length : Int) + 1, tick := tick
               ctScore := 0, tScore := 0, winningTeam := ""
               freezeTimeTick := 0 }]
          activeEffects := []
          isBombPlanted := false }
  | .freezetimeEnd tick =>
      { s with
        rounds := updateLastRound s.rounds
          (fun r => { r with freezeTimeTick := tick }) }
  | .frameDone tick playing bomb projectiles =>
      let c := s.currentTickCount + 1
      if c % tickSkip ≠ 0 then { s with currentTickCount := c }
      else
        let currentPlayers := playing.map (mkPlayerData s)
        let visibleGrenades := s.activeEffects.filter
          (fun eff => tick ≤ eff.endTick)
        let remainingEffects := s.activeEffects.filter
          (fun eff => tick ≤ eff.endTick)
        let bombData : BombData :=
          { x := bomb.x, y := bomb.y, z := bomb.z
            isPlanted := s.isBombPlanted
            carrierID := bomb.carrier.getD 0 }
        { s with
          currentTickCount := c
          frames := s.frames ++
            [{ tick := tick
               players := currentPlayers
               grenades := visibleGrenades
               projectiles := projectiles
               fires := s.currentFires
               bomb := bombData }]
          activeEffects := remainingEffects
          currentFires := []
          currentTickFlashIDs := [] }

/-- The whole of `ParseDemo` up to `p.ParseToEnd()`: a left fold of the
handlers over the decoder's chronological event stream. -/
def run (evs : List DemoEvent) : ParserState :=
  evs.foldl step initState

/-- Tick-rate resolution in `ParseDemo` after parsing:
`if tickRate <= 0 { tickRate = 64 }`. -/
def resolveTickRate (r : ℚ) : ℚ :=
  if r ≤ 0 then 64 else r

/-- Assembly of the final `MatchData` (tick rates and the accumulated
state).  `float64` division by the power of two `tickSkip = 4` is exact in
binary floating point for every representable positive rate, so it is
modelled by exact division on `ℚ`. -/
def finalizeMatch (mapName : String) (reportedTickRate : ℚ)
    (evs : List DemoEvent) : MatchData :=
  let s := run evs
  let tickRate := resolveTickRate reportedTickRate
  { mapName := mapName
    tickRate := tickRate / (tickSkip : ℚ)
    originalTickRate := tickRate
    frames := s.frames
    rounds := s.rounds
    kills := s.killEvents
    ctScore := s.ctScore
    tScore := s.tScore
    matchStartTick := s.matchStartTick }

/-- Spec-side (refinement) description of the pending-flash-id set: "the
ids of flash effects opened since the last emitted frame", recomputed
directly from the event stream.  The accumulator is
(effect-id counter, raw tick counter, pending ids). -/
def pendingSpecStep : Int × Int × List Int → DemoEvent → Int × Int × List Int
  | (ctr, tc, pend), .smokeStart _ _ _ _ _ => (ctr + 1, tc, pend)
  | (ctr, tc, pend), .fireGrenadeStart _ _ _ _ _ => (ctr + 1, tc, pend)
  | (ctr, tc, pend), .flashExplode _ _ _ _ => (ctr + 1, tc, pend ++ [ctr + 1])
  | (ctr, tc, pend), .heExplode _ _ _ _ => (ctr + 1, tc, pend)
  | (ctr, tc, pend), .frameDone _ _ _ _ =>
      if (tc + 1) % tickSkip ≠ 0 then (ctr, tc + 1, pend)
      else (ctr, tc + 1, [])
  | acc, _ => acc

/-- Spec-side: the ids of flash effects opened since the last emitted
frame, as a function of the whole event stream. -/
def specPendingFlashIDs (evs : List DemoEvent) : List Int :=
  (evs.foldl pendingSpecStep (0, 0, [])).2.2

/-- One scripted round for the amended C5 statement: a round-start signal
followed by a round-end signal with the raw decoder scores observed at
each. -/
structure RoundScript where
  startTick : Int
  startCT : Int
  startT : Int
  endWinner : Team
  endCT : Int
  endT : Int
deriving DecidableEq, Repr

/-- The event stream of a strictly alternating start/end round sequence
(all signals arriving with the decoder's match-started flag set). -/
def scriptEvents (rs : List RoundScript) : List DemoEvent :=
  rs.flatMap (fun r =>
    [DemoEvent.roundStart true r.startTick r.startCT r.startT [],
     DemoEvent.roundEnd r.endWinner r.endCT r.endT])

/-- Concrete input refuting C4: two SMOKE effects sharing entity id 7,
then one early-expiry signal for entity 7. -/
def cexC4Events : List DemoEvent :=
  [.smokeStart (some 7) 0 0 0 100, .smokeStart (some 7) 0 0 0 110,
   .smokeExpired (some 7) 130]

/-- Concrete input refuting C5: round 1 ends 1:0, round 2 never ends,
round 3 ends 2:0. -/
def cexC5Events : List DemoEvent :=
  [.roundStart true 100 0 0 [], .roundEnd Team.CT 1 0,
   .roundStart true 200 1 0 [], .roundStart true 300 1 0 [],
   .roundEnd Team.CT 2 0]

/-- A concrete five-a-side participant list (with a duplicated display
name on the CT side) used by witnesses. -/
def wtnParticipants : List Participant :=
  [⟨11, "bob", Team.CT⟩, ⟨12, "alice", Team.CT⟩, ⟨13, "zed", Team.T⟩,
   ⟨14, "ann", Team.T⟩, ⟨15, "bob", Team.CT⟩]

/-- Witness input: a flash opened at tick 500 (endTick 532), a frame
sampled at 530 (includes it) and a frame sampled at 535 (drops it). -/
def wtnFlashTrailP : List DemoEvent :=
  [.flashExplode 0 0 0 500,
   .frameDone 530 [] ⟨0, 0, 0, none⟩ [], .frameDone 530 [] ⟨0, 0, 0, none⟩ [],
   .frameDone 530 [] ⟨0, 0, 0, none⟩ [], .frameDone 530 [] ⟨0, 0, 0, none⟩ [],
   .frameDone 535 [] ⟨0, 0, 0, none⟩ [], .frameDone 535 [] ⟨0, 0, 0, none⟩ [],
   .frameDone 535 [] ⟨0, 0, 0, none⟩ [], .frameDone 535 [] ⟨0, 0, 0, none⟩ []]

/-- Witness continuation: one more sampled frame at tick 600. -/
def wtnFlashTrailQ : List DemoEvent :=
  [.frameDone 600 [] ⟨0, 0, 0, none⟩ [], .frameDone 600 [] ⟨0, 0, 0, none⟩ [],
   .frameDone 600 [] ⟨0, 0, 0, none⟩ [], .frameDone 600 [] ⟨0, 0, 0, none⟩ []]

/-- Witness input: a smoke (id 1, endTick 1252) opened before an accepted
round start. -/
def wtnRoundResetP : List DemoEvent :=
  [.smokeStart (some 7) 0 0 0 100]

/-- Witness continuation: one sampled frame at tick 400 (if the smoke had
survived the round reset it would still be visible there). -/
def wtnRoundResetQ : List DemoEvent :=
  [.frameDone 400 [] ⟨0, 0, 0, none⟩ [], .frameDone 400 [] ⟨0, 0, 0, none⟩ [],
   .frameDone 400 [] ⟨0, 0, 0, none⟩ [], .frameDone 400 [] ⟨0, 0, 0, none⟩ []]

/-! ## General lemmas about the fold -/

theorem run_append (p q : List DemoEvent) :
    run (p ++ q) = q.foldl step (run p) := by
  simp [run, List.foldl_append]

/-- Kill-handler stat mutation, kills field. -/
theorem applyKillStats_kills (stats : Nat → Stats)
    (killer victim assister : Option Nat) (headshot : Bool) (x : Nat) :
    (applyKillStats stats killer victim assister headshot x).kills =
      (stats x).kills + (if killer = some x then 1 else 0) := by
  rcases killer with _ | k <;> rcases victim with _ | v <;>
    rcases assister with _ | a <;>
    simp only [applyKillStats, upd, Option.some.injEq] <;>
    split_ifs <;> subst_vars <;> simp_all

/-- Kill-handler stat mutation, headshot field. -/
theorem applyKillStats_hs (stats : Nat → Stats)
    (killer victim assister : Option Nat) (headshot : Bool) (x : Nat) :
    (applyKillStats stats killer victim assister headshot x).hs =
      (stats x).hs +
        (if killer = some x ∧ headshot = true then 1 else 0) := by
  rcases killer with _ | k <;> rcases victim with _ | v <;>
    rcases assister with _ | a <;>
    simp only [applyKillStats, upd, Option.some.injEq] <;>
    split_ifs <;> subst_vars <;> simp_all

/-- Kill-handler stat mutation, deaths field. -/
theorem applyKillStats_deaths (stats : Nat → Stats)
    (killer victim assister : Option Nat) (headshot : Bool) (x : Nat) :
    (applyKillStats stats killer victim assister headshot x).deaths =
      (stats x).deaths + (if victim = some x then 1 else 0) := by
  rcases killer with _ | k <;> rcases victim with _ | v <;>
    rcases assister with _ | a <;>
    simp only [applyKillStats, upd, Option.some.injEq] <;>
    split_ifs <;> subst_vars <;> simp_all

/-- Kill-handler stat mutation, assists field. -/
theorem applyKillStats_assists (stats : Nat → Stats)
    (killer victim assister : Option Nat) (headshot : Bool) (x : Nat) :
    (applyKillStats stats killer victim assister headshot x).assists =
      (stats x).assists + (if assister = some x then 1 else 0) := by
  rcases killer with _ | k <;> rcases victim with _ | v <;>
    rcases assister with _ | a <;>
    simp only [applyKillStats, upd, Option.some.injEq] <;>
    split_ifs <;> subst_vars <;> simp_all

/-- Every step either leaves the stats map unchanged or applies one
Kill-handler mutation. -/
theorem step_playerStats (s : ParserState) (e : DemoEvent) :
    (step s e).playerStats = s.playerStats ∨
      ∃ k v a hs, (step s e).playerStats =
        applyKillStats s.playerStats k v a hs := by
  cases e with
  | kill k v a hs tick w => exact Or.inr ⟨k, v, a, hs, rfl⟩
  | weaponFire sh w => rcases sh with _ | sid <;> simp [step]
  | smokeExpired en tick => rcases en with _ | eid <;> simp [step]
  | fireGrenadeExpired en tick => rcases en with _ | eid <;> simp [step]
  | roundStart ims tick c1 c2 ps =>
      left
      simp only [step]
      split
      · rfl
      · split
        · rfl
        · split <;> rfl
  | frameDone tick pl b pr => left; simp only [step]; split <;> rfl
  | _ => left; rfl

/-- Every step either leaves the kill log unchanged or appends one
record. -/
theorem step_killEvents (s : ParserState) (e : DemoEvent) :
    ∃ t, (step s e).killEvents = s.killEvents ++ t := by
  cases e with
  | kill k v a hs tick w => exact ⟨_, rfl⟩
  | weaponFire sh w =>
      rcases sh with _ | sid <;> exact ⟨[], by simp [step]⟩
  | smokeExpired en tick =>
      rcases en with _ | eid <;> exact ⟨[], by simp [step]⟩
  | fireGrenadeExpired en tick =>
      rcases en with _ | eid <;> exact ⟨[], by simp [step]⟩
  | roundStart ims tick c1 c2 ps =>
      refine ⟨[], ?_⟩
      simp only [step]
      split
      · simp
      · split
        · simp
        · split <;> simp
  | frameDone tick pl b pr =>
      refine ⟨[], ?_⟩; simp only [step]; split <;> simp
  | _ => exact ⟨[], by simp [step]⟩

/-! ## C8, C9 -/

/-- C8: In the finalized document the sampled tick rate equals the native
tick rate divided by the downsample factor N = 4 exactly, where the native
rate is the decoder-reported value, replaced by the fixed default 64
whenever the decoder reports a non-positive value.  (`float64` division by
4 is exact in binary floating point, so the `ℚ` model is faithful.) -/
theorem tick_rate_resolution (mapName : String) (r : ℚ)
    (evs : List DemoEvent) :
    (finalizeMatch mapName r evs).tickRate
        = (finalizeMatch mapName r evs).originalTickRate / 4
      ∧ (r ≤ 0 → (finalizeMatch mapName r evs).originalTickRate = 64)
      ∧ (0 < r → (finalizeMatch mapName r evs).originalTickRate = r) := by
  refine ⟨?_, fun h => ?_, fun h => ?_⟩
  · show resolveTickRate r / ((tickSkip : Int) : ℚ) = resolveTickRate r / 4
    norm_num [tickSkip]
  · show resolveTickRate r = 64
    simp [resolveTickRate, h]
  · show resolveTickRate r = r
    simp [resolveTickRate, not_le.mpr h]

/-- Witness for `tick_rate_resolution` at concrete rates -1 and 128. -/
theorem tick_rate_resolution_wtn :
    (finalizeMatch "de_dust2" (-1) []).originalTickRate = 64
      ∧ (finalizeMatch "de_dust2" 128 []).originalTickRate = 128
      ∧ (finalizeMatch "de_dust2" 128 []).tickRate
          = (finalizeMatch "de_dust2" 128 []).originalTickRate / 4 :=
  ⟨(tick_rate_resolution "de_dust2" (-1) []).2.1 (by norm_num),
   (tick_rate_resolution "de_dust2" 128 []).2.2 (by norm_num),
   (tick_rate_resolution "de_dust2" 128 []).1⟩

/-- C9: For every kill event the killer's kill count (and headshot count
when flagged), the victim's death count and the assister's assist count
are each incremented iff that participant is present, independently; an
immutable kill record is always appended with absent killer/victim ids
substituted by 0; and no stats counter is ever decremented or reset by any
event. -/
theorem kill_event_accounting :
    (∀ s killer victim assister headshot tick weapon x,
      ((step s (.kill killer victim assister headshot tick weapon)).playerStats
            x).kills
          = (s.playerStats x).kills + (if killer = some x then 1 else 0)
        ∧ ((step s (.kill killer victim assister headshot tick
              weapon)).playerStats x).hs
            = (s.playerStats x).hs +
                (if killer = some x ∧ headshot = true then 1 else 0)
        ∧ ((step s (.kill killer victim assister headshot tick
              weapon)).playerStats x).deaths
            = (s.playerStats x).deaths + (if victim = some x then 1 else 0)
        ∧ ((step s (.kill killer victim assister headshot tick
              weapon)).playerStats x).assists
            = (s.playerStats x).assists +
                (if assister = some x then 1 else 0)
        ∧ (step s (.kill killer victim assister headshot tick
              weapon)).killEvents
            = s.killEvents ++
                [{ tick := tick, killerID := killer.getD 0
                   victimID := victim.getD 0, assisterID := assister.getD 0
                   isHeadshot := headshot, weapon := weapon }])
    ∧ (∀ s e x,
        (s.playerStats x).kills ≤ ((step s e).playerStats x).kills
        ∧ (s.playerStats x).deaths ≤ ((step s e).playerStats x).deaths
        ∧ (s.playerStats x).assists ≤ ((step s e).playerStats x).assists
        ∧ (s.playerStats x).hs ≤ ((step s e).playerStats x).hs
        ∧ ∃ t, (step s e).killEvents = s.killEvents ++ t) := by
  constructor
  · intro s killer victim assister headshot tick weapon x
    exact ⟨applyKillStats_kills s.playerStats killer victim assister headshot x,
      applyKillStats_hs s.playerStats killer victim assister headshot x,
      applyKillStats_deaths s.playerStats killer victim assister headshot x,
      applyKillStats_assists s.playerStats killer victim assister headshot x,
      rfl⟩
  · intro s e x
    rcases step_playerStats s e with h | ⟨k, v, a, hs, h⟩
    · rw [h]
      exact ⟨le_refl _, le_refl _, le_refl _, le_refl _, step_killEvents s e⟩
    · rw [h]
      refine ⟨?_, ?_, ?_, ?_, step_killEvents s e⟩
      · rw [applyKillStats_kills]; split_ifs <;> omega
      · rw [applyKillStats_deaths]; split_ifs <;> omega
      · rw [applyKillStats_assists]; split_ifs <;> omega
      · rw [applyKillStats_hs]; split_ifs <;> omega

/-! ## C1, C2: round numbering and score baselining -/

/-- Invariants are preserved along any fold of `step`. -/
theorem foldl_inv {P : ParserState → Prop}
    (h : ∀ s e, P s → P (step s e)) :
    ∀ (l : List DemoEvent) (s : ParserState), P s → P (l.foldl step s)
  | [], _, hs => hs
  | e :: l, s, hs => foldl_inv h l (step s e) (h s e hs)

theorem updateLastRound_map_number (rs : List RoundData)
    (f : RoundData → RoundData) (hf : ∀ r, (f r).number = r.number) :
    (updateLastRound rs f).map (fun r => r.number)
      = rs.map (fun r => r.number) := by
  induction rs with
  | nil => rfl
  | cons r rs ih =>
      cases rs with
      | nil => simp [updateLastRound, hf]
      | cons r' rs' => simpa [updateLastRound] using ih

/-- One step either keeps the list of round numbers or appends
`len + 1`. -/
theorem step_rounds_map_number (s : ParserState) (e : DemoEvent) :
    ((step s e).rounds).map (fun r => r.number)
        = s.rounds.map (fun r => r.number)
      ∨ ((step s e).rounds).map (fun r => r.number)
        = s.rounds.map (fun r => r.number) ++ [(s.rounds.length : Int) + 1] := by
  cases e with
  | roundEnd w c1 c2 =>
      exact Or.inl (updateLastRound_map_number _ _ (fun r => rfl))
  | freezetimeEnd tick =>
      exact Or.inl (updateLastRound_map_number _ _ (fun r => rfl))
  | weaponFire sh w => rcases sh with _ | sid <;> simp [step]
  | smokeExpired en tick => rcases en with _ | eid <;> simp [step]
  | fireGrenadeExpired en tick => rcases en with _ | eid <;> simp [step]
  | roundStart ims tick c1 c2 ps =>
      simp only [step]
      split
      · exact Or.inl rfl
      · right
        split
        · simp
        · split <;> simp
  | frameDone tick pl b pr =>
      left; simp only [step]; split <;> rfl
  | _ => left; rfl

/-- The decoder-gate contrapositive: if the match is not flagged started
after a step, it was not before. -/
theorem step_matchStarted_back (s : ParserState) (e : DemoEvent)
    (h : (step s e).matchStarted = false) : s.matchStarted = false := by
  cases e with
  | weaponFire sh w => rcases sh with _ | sid <;> simpa [step] using h
  | smokeExpired en tick => rcases en with _ | eid <;> simpa [step] using h
  | fireGrenadeExpired en tick =>
      rcases en with _ | eid <;> simpa [step] using h
  | roundStart ims tick c1 c2 ps =>
      rcases Bool.eq_false_or_eq_true ims with hi | hi <;> subst hi
      · rcases Bool.eq_false_or_eq_true s.matchStarted with hms | hms
        · exfalso
          simp [step, hms] at h
        · exact hms
      · simpa [step] using h
  | frameDone tick pl b pr =>
      simp only [step] at h
      split at h <;> simpa using h
  | _ => simpa [step] using h

/-- Before the decoder flags match start, nothing observable accumulates:
no rounds, zero scores, no roster. -/
theorem notStarted_inv (evs : List DemoEvent)
    (h : (run evs).matchStarted = false) :
    (run evs).rounds = [] ∧ (run evs).ctScore = 0 ∧ (run evs).tScore = 0
      ∧ (run evs).rosterBuilt = false
      ∧ (run evs).rosterMap = (fun _ => 0) := by
  have key : ∀ (l : List DemoEvent) (s : ParserState),
      (s.matchStarted = false →
        (s.rounds = [] ∧ s.ctScore = 0 ∧ s.tScore = 0
          ∧ s.rosterBuilt = false ∧ s.rosterMap = (fun _ => 0))) →
      ((l.foldl step s).matchStarted = false →
        ((l.foldl step s).rounds = [] ∧ (l.foldl step s).ctScore = 0
          ∧ (l.foldl step s).tScore = 0
          ∧ (l.foldl step s).rosterBuilt = false
          ∧ (l.foldl step s).rosterMap = (fun _ => 0))) := by
    refine foldl_inv ?_
    intro s e hs hns
    have hms : s.matchStarted = false := step_matchStarted_back s e hns
    obtain ⟨h1, h2, h3, h4, h5⟩ := hs hms
    cases e with
    | roundEnd w c1 c2 =>
        refine ⟨?_, ?_, ?_, h4, h5⟩ <;>
          simp [step, hms, h1, h2, h3, updateLastRound]
    | kill k v a hs tick w => exact ⟨h1, h2, h3, h4, h5⟩
    | weaponFire sh w =>
        rcases sh with _ | sid <;> exact ⟨h1, h2, h3, h4, h5⟩
    | playerFlashed team => exact ⟨h1, h2, h3, h4, h5⟩
    | smokeStart en x y z tick => exact ⟨h1, h2, h3, h4, h5⟩
    | smokeExpired en tick =>
        rcases en with _ | eid <;> exact ⟨h1, h2, h3, h4, h5⟩
    | fireGrenadeStart en x y z tick => exact ⟨h1, h2, h3, h4, h5⟩
    | fireGrenadeExpired en tick =>
        rcases en with _ | eid <;> exact ⟨h1, h2, h3, h4, h5⟩
    | flashExplode x y z tick => exact ⟨h1, h2, h3, h4, h5⟩
    | heExplode x y z tick => exact ⟨h1, h2, h3, h4, h5⟩
    | bombPlanted => exact ⟨h1, h2, h3, h4, h5⟩
    | bombDefused => exact ⟨h1, h2, h3, h4, h5⟩
    | bombExplode => exact ⟨h1, h2, h3, h4, h5⟩
    | roundStart ims tick c1 c2 ps =>
        rcases Bool.eq_false_or_eq_true ims with hi | hi <;> subst hi
        · exfalso
          simp [step, hms, h4] at hns
        · exact ⟨h1, h2, h3, h4, h5⟩
    | freezetimeEnd tick =>
        refine ⟨?_, h2, h3, h4, h5⟩
        simp [step, h1, updateLastRound]
    | frameDone tick pl b pr =>
        refine ⟨?_, ?_, ?_, ?_, ?_⟩ <;>
          (simp only [step]; split <;> simp [h1, h2, h3, h4, h5])
  exact key evs initState (fun _ => ⟨rfl, rfl, rfl, rfl, rfl⟩) h

/-- The list of round numbers is always `[1, 2, ..., n]`. -/
theorem run_rounds_numbers (evs : List DemoEvent) :
    (run evs).rounds.map (fun r => r.number)
      = (List.range (run evs).rounds.length).map (fun i : Nat => (i : Int) + 1) := by
  have key : ∀ (l : List DemoEvent) (s : ParserState),
      (s.rounds.map (fun r => r.number)
          = (List.range s.rounds.length).map (fun i : Nat => (i : Int) + 1)) →
      ((l.foldl step s).rounds.map (fun r => r.number)
          = (List.range (l.foldl step s).rounds.length).map
              (fun i : Nat => (i : Int) + 1)) := by
    refine foldl_inv ?_
    intro s e hs
    have hlen : s.rounds.length = (s.rounds.map (fun r => r.number)).length := by
      simp
    rcases step_rounds_map_number s e with h | h
    · have : (step s e).rounds.length = s.rounds.length := by
        have := congrArg List.length h
        simpa using this
      rw [h, this, hs]
    · have : (step s e).rounds.length = s.rounds.length + 1 := by
        have := congrArg List.length h
        simpa using this
      rw [h, this, hs, List.range_succ]
      simp
  exact key evs initState rfl

/-- C1: round records produced have strictly increasing sequence numbers
starting at 1 (`rounds[i].number = i + 1`); no round record exists while
match start is unconfirmed; and a round-start signal with the decoder's
match-started flag unset leaves the state untouched (warmup/knife rounds
are filtered out entirely). -/
theorem round_numbering (evs : List DemoEvent) :
    (∀ i (h : i < (run evs).rounds.length),
        ((run evs).rounds.get ⟨i, h⟩).number = (i : Int) + 1)
      ∧ ((run evs).matchStarted = false → (run evs).rounds = [])
      ∧ (∀ s tick c1 c2 ps,
          step s (DemoEvent.roundStart false tick c1 c2 ps) = s) := by
  refine ⟨?_, fun h => (notStarted_inv evs h).1, fun s tick c1 c2 ps => rfl⟩
  intro i h
  have hmap := run_rounds_numbers evs
  have hlen : i < ((run evs).rounds.map (fun r => r.number)).length := by
    rw [List.length_map]; exact h
  have heq := List.getElem_of_eq hmap hlen
  rw [List.getElem_map] at heq
  rw [List.getElem_map, List.getElem_range] at heq
  rw [List.get_eq_getElem]
  exact heq

/-- Witness for `round_numbering`: two confirmed round starts give
numbers 1 and 2; the empty stream has no rounds. -/
theorem round_numbering_wtn :
    ((run [DemoEvent.roundStart true 100 0 0 [],
           DemoEvent.roundStart true 200 0 0 []]).rounds.get
        ⟨1, by decide⟩).number = (1 : Int) + 1
      ∧ (run []).rounds = [] :=
  ⟨(round_numbering _).1 1 (by decide), (round_numbering []).2.1 rfl⟩

/-- C2: before match start is confirmed the externally visible scores stay
0 whatever events (round ends included) are processed; once the
`matchStarted` flag is set no event (in particular no second round-start
signal) changes it back or re-captures the baselines; and after
confirmation each round-end reports exactly raw score minus the captured
baseline. -/
theorem score_baseline :
    (∀ evs, (run evs).matchStarted = false →
        (run evs).ctScore = 0 ∧ (run evs).tScore = 0)
      ∧ (∀ s e, s.matchStarted = true →
          (step s e).matchStarted = true
            ∧ (step s e).baseCTScore = s.baseCTScore
            ∧ (step s e).baseTScore = s.baseTScore)
      ∧ (∀ s winner rawCT rawT, s.matchStarted = true →
          (step s (DemoEvent.roundEnd winner rawCT rawT)).ctScore
              = rawCT - s.baseCTScore
            ∧ (step s (DemoEvent.roundEnd winner rawCT rawT)).tScore
              = rawT - s.baseTScore) := by
  refine ⟨?_, ?_, ?_⟩
  · intro evs h
    exact ⟨(notStarted_inv evs h).2.1, (notStarted_inv evs h).2.2.1⟩
  · intro s e h
    cases e with
    | weaponFire sh w => rcases sh with _ | sid <;> simp [step, h]
    | smokeExpired en tick => rcases en with _ | eid <;> simp [step, h]
    | fireGrenadeExpired en tick =>
        rcases en with _ | eid <;> simp [step, h]
    | roundStart ims t c1 c2 ps =>
        rcases Bool.eq_false_or_eq_true ims with hi | hi <;> subst hi <;>
          simp [step, h]
    | frameDone t pl b pr =>
        simp only [step]; split <;> simp [h]
    | _ => simp [step, h]
  · intro s winner rawCT rawT h
    constructor <;> simp [step, h]

/-- Witness for `score_baseline`: empty stream (unconfirmed, scores 0); a
confirmed state where a second round-start keeps the baseline and a
round-end reports raw minus baseline. -/
theorem score_baseline_wtn :
    ((run []).ctScore = 0 ∧ (run []).tScore = 0)
      ∧ ((step (run [DemoEvent.roundStart true 100 3 2 []])
            (DemoEvent.roundStart true 200 7 7 [])).baseCTScore
          = (run [DemoEvent.roundStart true 100 3 2 []]).baseCTScore)
      ∧ ((step (run [DemoEvent.roundStart true 100 3 2 []])
            (DemoEvent.roundEnd Team.CT 5 2)).ctScore
          = 5 - (run [DemoEvent.roundStart true 100 3 2 []]).baseCTScore) :=
  ⟨score_baseline.1 [] rfl,
   (score_baseline.2.1 _ _ (by decide)).2.1,
   (score_baseline.2.2 _ Team.CT 5 2 (by decide)).1⟩

/-! ## C3, C10: effect lifetimes, sampling eviction, round reset -/

/-- Elements surviving a fold of maps are reachable from an original
element through steps of a transitive relation. -/
theorem foldl_map_stable {β γ : Type} (R : β → β → Prop)
    (htrans : ∀ a b c, R a b → R b c → R a c) (hrefl : ∀ b, R b b)
    (h : γ → β → β) (hpres : ∀ i b, R b (h i b)) :
    ∀ (g : List γ) (l : List β) (b : β),
      b ∈ g.foldl (fun acc i => acc.map (h i)) l → ∃ b0 ∈ l, R b0 b
  | [], _, b, hb => ⟨b, hb, hrefl b⟩
  | i :: g, l, b, hb => by
      obtain ⟨b1, hb1, hR⟩ :=
        foldl_map_stable R htrans hrefl h hpres g (l.map (h i)) b hb
      obtain ⟨b0, hb0, rfl⟩ := List.mem_map.mp hb1
      exact ⟨b0, hb0, htrans _ _ _ (hpres i b0) hR⟩

/-- Every record in the active set after a step either inherits the id of
a previously active record or is the freshly allocated id; and the id
counter never decreases. -/
theorem step_effects_shape (s : ParserState) (e : DemoEvent) :
    (∀ eff ∈ (step s e).activeEffects,
        (∃ eff0 ∈ s.activeEffects, eff.id = eff0.id)
          ∨ eff.id = s.effectIDCounter + 1)
      ∧ s.effectIDCounter ≤ (step s e).effectIDCounter := by
  cases e with
  | playerFlashed team =>
      refine ⟨?_, le_refl _⟩
      intro eff hm
      left
      have := foldl_map_stable (β := GrenadeEffect) (γ := Int)
        (fun a b => b.id = a.id)
        (fun a b c hab hbc => hbc.trans hab) (fun b => rfl)
        (fun fid eff =>
          if eff.id = fid then
            if team = Team.CT then { eff with flashedCT := eff.flashedCT + 1 }
            else if team = Team.T then { eff with flashedT := eff.flashedT + 1 }
            else eff
          else eff)
        (fun i b => by dsimp only; split_ifs <;> rfl)
        s.currentTickFlashIDs s.activeEffects eff hm
      obtain ⟨b0, hb0, hid⟩ := this
      exact ⟨b0, hb0, hid⟩
  | smokeStart en x y z tick =>
      refine ⟨?_, by simp [step]⟩
      intro eff hm
      simp only [step, List.mem_append, List.mem_singleton] at hm
      rcases hm with hm | rfl
      · exact Or.inl ⟨eff, hm, rfl⟩
      · exact Or.inr rfl
  | fireGrenadeStart en x y z tick =>
      refine ⟨?_, by simp [step]⟩
      intro eff hm
      simp only [step, List.mem_append, List.mem_singleton] at hm
      rcases hm with hm | rfl
      · exact Or.inl ⟨eff, hm, rfl⟩
      · exact Or.inr rfl
  | flashExplode x y z tick =>
      refine ⟨?_, by simp [step]⟩
      intro eff hm
      simp only [step, List.mem_append, List.mem_singleton] at hm
      rcases hm with hm | rfl
      · exact Or.inl ⟨eff, hm, rfl⟩
      · exact Or.inr rfl
  | heExplode x y z tick =>
      refine ⟨?_, by simp [step]⟩
      intro eff hm
      simp only [step, List.mem_append, List.mem_singleton] at hm
      rcases hm with hm | rfl
      · exact Or.inl ⟨eff, hm, rfl⟩
      · exact Or.inr rfl
  | smokeExpired en tick =>
      rcases en with _ | eid
      · exact ⟨fun eff hm => Or.inl ⟨eff, hm, rfl⟩, le_refl _⟩
      · refine ⟨?_, le_refl _⟩
        intro eff hm
        simp only [step, List.mem_map] at hm
        obtain ⟨eff0, hm0, rfl⟩ := hm
        left
        refine ⟨eff0, hm0, ?_⟩
        split_ifs <;> rfl
  | fireGrenadeExpired en tick =>
      rcases en with _ | eid
      · exact ⟨fun eff hm => Or.inl ⟨eff, hm, rfl⟩, le_refl _⟩
      · refine ⟨?_, le_refl _⟩
        intro eff hm
        simp only [step, List.mem_map] at hm
        obtain ⟨eff0, hm0, rfl⟩ := hm
        left
        refine ⟨eff0, hm0, ?_⟩
        split_ifs <;> rfl
  | weaponFire sh w =>
      rcases sh with _ | sid <;>
        exact ⟨fun eff hm => Or.inl ⟨eff, hm, rfl⟩, le_refl _⟩
  | roundStart ims tick c1 c2 ps =>
      constructor
      · intro eff hm
        rcases Bool.eq_false_or_eq_true ims with hi | hi <;> subst hi
        · exfalso
          simp only [step] at hm
          rw [if_neg (by simp)] at hm
          simp at hm
        · exact Or.inl ⟨eff, by simpa [step] using hm, rfl⟩
      · rcases Bool.eq_false_or_eq_true ims with hi | hi <;> subst hi
        · simp only [step]
          rw [if_neg (by simp)]
          split
          · exact le_refl _
          · split <;> exact le_refl _
        · simp [step]
  | frameDone tick pl b pr =>
      constructor
      · intro eff hm
        simp only [step] at hm
        split at hm
        · exact Or.inl ⟨eff, hm, rfl⟩
        · exact Or.inl ⟨eff, (List.mem_filter.mp hm).1, rfl⟩
      · simp only [step]; split <;> exact le_refl _
  | _ => exact ⟨fun eff hm => Or.inl ⟨eff, hm, rfl⟩, le_refl _⟩

/-- Once an id is both allocated and absent from the active set, no step
re-introduces it. -/
theorem step_absent (s : ParserState) (e : DemoEvent) (X : Int)
    (hle : X ≤ s.effectIDCounter)
    (habs : ∀ eff ∈ s.activeEffects, eff.id ≠ X) :
    ∀ eff ∈ (step s e).activeEffects, eff.id ≠ X := by
  intro eff hm
  rcases (step_effects_shape s e).1 eff hm with ⟨e0, he0, hid⟩ | hid
  · rw [hid]; exact habs e0 he0
  · rw [hid]; omega

/-- A step either keeps the frame list or appends one frame whose effect
records are (copies of) then-active records visible at the frame tick. -/
theorem step_frames_shape (s : ParserState) (e : DemoEvent) :
    (step s e).frames = s.frames
      ∨ ∃ f, (step s e).frames = s.frames ++ [f]
          ∧ (∀ eff ∈ f.grenades, eff ∈ s.activeEffects ∧ f.tick ≤ eff.endTick) := by
  cases e with
  | weaponFire sh w => rcases sh with _ | sid <;> exact Or.inl rfl
  | smokeExpired en tick => rcases en with _ | eid <;> exact Or.inl rfl
  | fireGrenadeExpired en tick => rcases en with _ | eid <;> exact Or.inl rfl
  | roundStart ims tick c1 c2 ps =>
      left
      simp only [step]
      split
      · rfl
      · split
        · rfl
        · split <;> rfl
  | frameDone tick pl b pr =>
      simp only [step]
      split
      · exact Or.inl rfl
      · right
        refine ⟨_, rfl, ?_⟩
        intro eff hm
        have := List.mem_filter.mp hm
        exact ⟨this.1, by simpa using this.2⟩
  | _ => exact Or.inl rfl

/-- When a step emits a frame, the surviving active set is exactly the
emitted frame's effect list (the two filters in the FrameDone handler
coincide). -/
theorem step_frames_active (s : ParserState) (e : DemoEvent)
    (hgrow : (step s e).frames.length = s.frames.length + 1) :
    ∃ f, (step s e).frames = s.frames ++ [f]
      ∧ (step s e).activeEffects = f.grenades := by
  cases e with
  | frameDone tick pl b pr =>
      simp only [step] at hgrow ⊢
      by_cases hc : (s.currentTickCount + 1) % tickSkip ≠ 0
      · rw [if_pos hc] at hgrow
        simp at hgrow
      · rw [if_neg hc] at hgrow ⊢
        exact ⟨_, rfl, rfl⟩
  | weaponFire sh w =>
      rcases sh with _ | sid <;> simp [step] at hgrow
  | smokeExpired en tick =>
      rcases en with _ | eid <;> simp [step] at hgrow
  | fireGrenadeExpired en tick =>
      rcases en with _ | eid <;> simp [step] at hgrow
  | roundStart ims tick c1 c2 ps =>
      exfalso
      rcases step_rounds_map_number s (DemoEvent.roundStart ims tick c1 c2 ps)
        with h | h
      all_goals
        simp only [step] at hgrow
        revert hgrow
        split
        · simp
        · split
          · simp
          · split <;> simp
  | _ => simp [step] at hgrow

/-- Along any continuation: an allocated-and-absent id stays absent from
the active set and from every newly emitted frame. -/
theorem run_effects_aux (q : List DemoEvent) :
    ∀ (s : ParserState) (X : Int), X ≤ s.effectIDCounter →
      (∀ eff ∈ s.activeEffects, eff.id ≠ X) →
      X ≤ (q.foldl step s).effectIDCounter
        ∧ (∀ eff ∈ (q.foldl step s).activeEffects, eff.id ≠ X)
        ∧ ∃ ext, (q.foldl step s).frames = s.frames ++ ext
            ∧ ∀ f ∈ ext, ∀ eff ∈ f.grenades, eff.id ≠ X := by
  induction q with
  | nil =>
      intro s X hle habs
      exact ⟨hle, habs, [], by simp, by simp⟩
  | cons e q ih =>
      intro s X hle habs
      have hle' : X ≤ (step s e).effectIDCounter :=
        le_trans hle (step_effects_shape s e).2
      have habs' := step_absent s e X hle habs
      obtain ⟨h1, h2, ext, hext, hfa⟩ := ih (step s e) X hle' habs'
      refine ⟨h1, h2, ?_⟩
      rcases step_frames_shape s e with hf | ⟨f, hf, hfg⟩
      · exact ⟨ext, by rw [List.foldl_cons, hext, hf], hfa⟩
      · refine ⟨f :: ext, ?_, ?_⟩
        · rw [List.foldl_cons, hext, hf]; simp
        · intro f' hf' eff heff
          rcases List.mem_cons.mp hf' with rfl | hmem
          · exact habs eff (hfg eff heff).1
          · exact hfa f' hmem eff heff

/-- Every effect record in every emitted frame is visible at the frame's
tick. -/
theorem frames_visible_inv (evs : List DemoEvent) :
    ∀ f ∈ (run evs).frames, ∀ eff ∈ f.grenades, f.tick ≤ eff.endTick := by
  have key : ∀ (l : List DemoEvent) (s : ParserState),
      (∀ f ∈ s.frames, ∀ eff ∈ f.grenades, f.tick ≤ eff.endTick) →
      (∀ f ∈ (l.foldl step s).frames, ∀ eff ∈ f.grenades,
          f.tick ≤ eff.endTick) := by
    refine foldl_inv ?_
    intro s e hs f hf eff heff
    rcases step_frames_shape s e with h | ⟨f0, h, hfg⟩
    · rw [h] at hf; exact hs f hf eff heff
    · rw [h] at hf
      rcases List.mem_append.mp hf with hf | hf
      · exact hs f hf eff heff
      · rw [List.mem_singleton.mp hf] at heff ⊢
        exact (hfg eff heff).2
  exact key evs initState (by simp [initState, run])

/-- C3: every effect record included in a sampled frame satisfies
`frame.tick ≤ record.endTick`; an expired record is evicted from the
active set at the frame that drops it (the frame's list and the surviving
set are the same filter), and an evicted id can never appear in any later
sampled frame. -/
theorem effect_sampling_eviction (p q : List DemoEvent) (X : Int)
    (hle : X ≤ (run p).effectIDCounter)
    (habs : ∀ eff ∈ (run p).activeEffects, eff.id ≠ X) :
    (∀ f ∈ (run (p ++ q)).frames.drop (run p).frames.length,
        ∀ eff ∈ f.grenades, eff.id ≠ X)
      ∧ (∀ evs, ∀ f ∈ (run evs).frames, ∀ eff ∈ f.grenades,
          f.tick ≤ eff.endTick)
      ∧ (∀ s e, (step s e).frames.length = s.frames.length + 1 →
          ∃ f, (step s e).frames = s.frames ++ [f]
            ∧ (step s e).activeEffects = f.grenades) := by
  refine ⟨?_, frames_visible_inv, step_frames_active⟩
  obtain ⟨_, _, ext, hext, hfa⟩ := run_effects_aux q (run p) X hle habs
  rw [run_append, hext, List.drop_left]
  exact hfa

/-- Witness for `effect_sampling_eviction`: once the tick-500 flash
(id 1) has been dropped by the tick-535 frame, it is absent from every
later frame. -/
theorem effect_sampling_eviction_wtn :
    ((run (wtnFlashTrailP ++ wtnFlashTrailQ)).frames.drop
        (run wtnFlashTrailP).frames.length).all
      (fun f => f.grenades.all (fun eff => decide (eff.id ≠ 1))) = true := by
  have h := (effect_sampling_eviction wtnFlashTrailP wtnFlashTrailQ 1
    (by decide) (by decide)).1
  refine List.all_eq_true.mpr ?_
  intro f hf
  refine List.all_eq_true.mpr ?_
  intro eff heff
  exact decide_eq_true (h f hf eff heff)

/-- C10: every accepted round-start signal resets the active-effects list
to empty and the bomb-planted flag to false; consequently no effect
opened before the accepted round start (id allocated by then) appears in
any frame sampled afterwards. -/
theorem round_start_reset (p q : List DemoEvent) (tick c1 c2 : Int)
    (ps : List Participant) (X : Int)
    (hle : X ≤ (run p).effectIDCounter) :
    (run (p ++ [DemoEvent.roundStart true tick c1 c2 ps])).activeEffects = []
      ∧ (run (p ++ [DemoEvent.roundStart true tick c1 c2 ps])).isBombPlanted
          = false
      ∧ (∀ f ∈ (run ((p ++ [DemoEvent.roundStart true tick c1 c2 ps])
              ++ q)).frames.drop
            (run (p ++ [DemoEvent.roundStart true tick c1 c2 ps])).frames.length,
          ∀ eff ∈ f.grenades, eff.id ≠ X) := by
  have hstep : ∀ s : ParserState,
      (step s (DemoEvent.roundStart true tick c1 c2 ps)).activeEffects = []
        ∧ (step s (DemoEvent.roundStart true tick c1 c2 ps)).isBombPlanted
            = false
        ∧ (step s (DemoEvent.roundStart true tick c1 c2 ps)).effectIDCounter
            = s.effectIDCounter := by
    intro s
    simp only [step]
    rw [if_neg (by simp)]
    refine ⟨rfl, rfl, ?_⟩
    split
    · rfl
    · split <;> rfl
  have hrun : run (p ++ [DemoEvent.roundStart true tick c1 c2 ps])
      = step (run p) (DemoEvent.roundStart true tick c1 c2 ps) := by
    rw [run_append]; rfl
  obtain ⟨ha, hb, hc⟩ := hstep (run p)
  refine ⟨by rw [hrun]; exact ha, by rw [hrun]; exact hb, ?_⟩
  obtain ⟨_, _, ext, hext, hfa⟩ := run_effects_aux q
    (run (p ++ [DemoEvent.roundStart true tick c1 c2 ps])) X
    (by rw [hrun, hc]; exact hle)
    (by rw [hrun, ha]; intro eff h; exact absurd h (List.not_mem_nil eff))
  rw [run_append (p ++ [DemoEvent.roundStart true tick c1 c2 ps]) q, hext,
    List.drop_left]
  exact hfa

/-- Witness for `round_start_reset`: the pre-round smoke (id 1, nominal
endTick 1252) is wiped by the accepted round start and absent from the
tick-400 frame. -/
theorem round_start_reset_wtn :
    (run (wtnRoundResetP ++ [DemoEvent.roundStart true 300 0 0 []])).activeEffects
        = []
      ∧ (run (wtnRoundResetP
            ++ [DemoEvent.roundStart true 300 0 0 []])).isBombPlanted = false
      ∧ ((run ((wtnRoundResetP ++ [DemoEvent.roundStart true 300 0 0 []])
              ++ wtnRoundResetQ)).frames.drop
            (run (wtnRoundResetP
              ++ [DemoEvent.roundStart true 300 0 0 []])).frames.length).all
          (fun f => f.grenades.all (fun eff => decide (eff.id ≠ 1))) = true := by
  obtain ⟨h1, h2, h3⟩ :=
    round_start_reset wtnRoundResetP wtnRoundResetQ 300 0 0 [] 1 (by decide)
  refine ⟨h1, h2, ?_⟩
  refine List.all_eq_true.mpr ?_
  intro f hf
  refine List.all_eq_true.mpr ?_
  intro eff heff
  exact decide_eq_true (h3 f hf eff heff)

/-! ## C4: close-early hits every matching record, not just the first -/

/-- Pointwise description of a conditional rewrite map over a list. -/
theorem map_ite_get {α : Type} (l : List α) (c : α → Prop) [DecidablePred c]
    (g : α → α) (i : ℕ)
    (h1 : i < (l.map (fun a => if c a then g a else a)).length)
    (h2 : i < l.length) :
    (c (l.get ⟨i, h2⟩) →
        (l.map (fun a => if c a then g a else a)).get ⟨i, h1⟩
          = g (l.get ⟨i, h2⟩))
      ∧ (¬c (l.get ⟨i, h2⟩) →
        (l.map (fun a => if c a then g a else a)).get ⟨i, h1⟩
          = l.get ⟨i, h2⟩) := by
  constructor <;> intro hc <;>
    rw [List.get_eq_getElem] at hc <;>
    rw [List.get_eq_getElem, List.get_eq_getElem, List.getElem_map]
  · rw [if_pos hc]
  · rw [if_neg hc]

/-- Counterexample to C4 as stated: after two SMOKE effects share entity
id 7, the early-expiry signal at tick 130 rewrites the endTick of BOTH
records (the second, at its nominal 110 + 1152 = 1262, does not stay
unchanged). -/
theorem closeEarly_first_match_cex :
    ((run cexC4Events).activeEffects.map (fun eff => eff.endTick)
        = [130, 130])
      ∧ (110 + smokeDurationTicks : Int) = 1262
      ∧ (130 : Int) ≠ 1262 :=
  ⟨by decide, by decide, by decide⟩

/-- C4 (amended): a close-early signal for (correlationId, kind) sets the
endTick of EVERY matching active record to the current tick, while
records not matching both the correlation id and the kind are unchanged;
length and order of the active list are preserved.  (Both the SMOKE and
the MOLOTOV handler behave this way.) -/
theorem closeEarly_all_matching (p : List DemoEvent) (eid tick : Int) :
    ((run (p ++ [DemoEvent.smokeExpired (some eid) tick])).activeEffects.length
        = (run p).activeEffects.length
      ∧ ∀ i (h1 : i <
            (run (p ++ [DemoEvent.smokeExpired (some eid)
              tick])).activeEffects.length)
          (h2 : i < (run p).activeEffects.length),
          ((((run p).activeEffects.get ⟨i, h2⟩).entityID = eid
              ∧ ((run p).activeEffects.get ⟨i, h2⟩).type_ = "SMOKE") →
            (run (p ++ [DemoEvent.smokeExpired (some eid)
                tick])).activeEffects.get ⟨i, h1⟩
              = { (run p).activeEffects.get ⟨i, h2⟩ with endTick := tick })
          ∧ (¬(((run p).activeEffects.get ⟨i, h2⟩).entityID = eid
              ∧ ((run p).activeEffects.get ⟨i, h2⟩).type_ = "SMOKE") →
            (run (p ++ [DemoEvent.smokeExpired (some eid)
                tick])).activeEffects.get ⟨i, h1⟩
              = (run p).activeEffects.get ⟨i, h2⟩))
    ∧ ((run (p ++ [DemoEvent.fireGrenadeExpired (some eid)
            tick])).activeEffects.length
        = (run p).activeEffects.length
      ∧ ∀ i (h1 : i <
            (run (p ++ [DemoEvent.fireGrenadeExpired (some eid)
              tick])).activeEffects.length)
          (h2 : i < (run p).activeEffects.length),
          ((((run p).activeEffects.get ⟨i, h2⟩).entityID = eid
              ∧ ((run p).activeEffects.get ⟨i, h2⟩).type_ = "MOLOTOV") →
            (run (p ++ [DemoEvent.fireGrenadeExpired (some eid)
                tick])).activeEffects.get ⟨i, h1⟩
              = { (run p).activeEffects.get ⟨i, h2⟩ with endTick := tick })
          ∧ (¬(((run p).activeEffects.get ⟨i, h2⟩).entityID = eid
              ∧ ((run p).activeEffects.get ⟨i, h2⟩).type_ = "MOLOTOV") →
            (run (p ++ [DemoEvent.fireGrenadeExpired (some eid)
                tick])).activeEffects.get ⟨i, h1⟩
              = (run p).activeEffects.get ⟨i, h2⟩)) := by
  have hrun1 : run (p ++ [DemoEvent.smokeExpired (some eid) tick])
      = step (run p) (DemoEvent.smokeExpired (some eid) tick) := by
    rw [run_append]; rfl
  have hrun2 : run (p ++ [DemoEvent.fireGrenadeExpired (some eid) tick])
      = step (run p) (DemoEvent.fireGrenadeExpired (some eid) tick) := by
    rw [run_append]; rfl
  constructor
  · rw [hrun1]
    show ((run p).activeEffects.map _).length = _ ∧ _
    refine ⟨List.length_map _ _, ?_⟩
    intro i h1 h2
    exact map_ite_get (run p).activeEffects
      (fun eff => eff.entityID = eid ∧ eff.type_ = "SMOKE")
      (fun eff => { eff with endTick := tick }) i
      (by rw [List.length_map]; exact h2) h2
  · rw [hrun2]
    show ((run p).activeEffects.map _).length = _ ∧ _
    refine ⟨List.length_map _ _, ?_⟩
    intro i h1 h2
    exact map_ite_get (run p).activeEffects
      (fun eff => eff.entityID = eid ∧ eff.type_ = "MOLOTOV")
      (fun eff => { eff with endTick := tick }) i
      (by rw [List.length_map]; exact h2) h2

/-- Witness for `closeEarly_all_matching` on the two-smoke input: the
second matching record is rewritten to 130 as well. -/
theorem closeEarly_all_matching_wtn :
    (run ([.smokeStart (some 7) 0 0 0 100, .smokeStart (some 7) 0 0 0 110]
        ++ [DemoEvent.smokeExpired (some 7) 130])).activeEffects.get
      ⟨1, by decide⟩
      = { (run [.smokeStart (some 7) 0 0 0 100,
            .smokeStart (some 7) 0 0 0 110]).activeEffects.get ⟨1, by decide⟩
          with endTick := 130 } :=
  ((closeEarly_all_matching
      [.smokeStart (some 7) 0 0 0 100, .smokeStart (some 7) 0 0 0 110]
      7 130).1.2 1 (by decide) (by decide)).1 (by decide)

/-! ## C5: round score sums -/

/-- Counterexample to C5 as stated: with round 1 ending 1:0, round 2
never ending, and round 3 ending 2:0, the recorded sums are [1, 0, 2]:
the first round's recorded sum is 1, not 0, and the sequence is not
monotone. -/
theorem round_score_sum_cex :
    ((run cexC5Events).rounds.map (fun r => r.ctScore + r.tScore) = [1, 0, 2])
      ∧ ¬((1 : Int) ≤ 0)
      ∧ ((run cexC5Events).rounds.get ⟨0, by decide⟩).ctScore
          + ((run cexC5Events).rounds.get ⟨0, by decide⟩).tScore ≠ 0 :=
  ⟨by decide, by decide, by decide⟩

/-- Back-filling the most recent round of a non-empty list. -/
theorem updateLastRound_append_singleton (l : List RoundData) (x : RoundData)
    (f : RoundData → RoundData) :
    updateLastRound (l ++ [x]) f = l ++ [f x] := by
  induction l with
  | nil => rfl
  | cons a t ih =>
      cases t with
      | nil => rfl
      | cons b t2 =>
          show a :: updateLastRound ((b :: t2) ++ [x]) f = a :: ((b :: t2) ++ [f x])
          rw [ih]

/-- The RoundStart handler on a confirmed match: appends a fresh record
with zero scores and resets the per-round effect state. -/
theorem step_roundStart_started (s : ParserState) (hm : s.matchStarted = true)
    (tick c1 c2 : Int) (ps : List Participant) :
    step s (DemoEvent.roundStart true tick c1 c2 ps)
      = { s with
          rounds := s.rounds ++
            [{ number := (s.rounds.length : Int) + 1, tick := tick
               ctScore := 0, tScore := 0, winningTeam := ""
               freezeTimeTick := 0 }]
          activeEffects := []
          isBombPlanted := false } := by
  simp only [step]
  rw [if_neg (by simp), if_pos hm]

/-- The RoundEnd handler on a confirmed match: reports raw score minus
baseline and back-fills the most recent round. -/
theorem step_roundEnd_eq (s : ParserState) (w : Team) (rawCT rawT : Int)
    (hm : s.matchStarted = true) :
    step s (DemoEvent.roundEnd w rawCT rawT)
      = { s with
          ctScore := rawCT - s.baseCTScore
          tScore := rawT - s.baseTScore
          rounds := updateLastRound s.rounds (fun r =>
            { r with
              ctScore := rawCT - s.baseCTScore
              tScore := rawT - s.baseTScore
              winningTeam := if w = Team.CT then "CT"
                else if w = Team.T then "T" else "" }) } := by
  simp only [step, hm, if_true]

/-- Characterization of a strictly alternating start/end script run from
a confirmed state: each scripted round contributes one record whose
recorded sum is its raw end sum minus the baseline sum. -/
theorem run_script_aux (rs : List RoundScript) :
    ∀ (s : ParserState), s.matchStarted = true →
      ((scriptEvents rs).foldl step s).rounds.map (fun r => r.ctScore + r.tScore)
        = s.rounds.map (fun r => r.ctScore + r.tScore)
          ++ rs.map (fun r =>
              r.endCT + r.endT - (s.baseCTScore + s.baseTScore)) := by
  induction rs with
  | nil => intro s hm; simp [scriptEvents]
  | cons r rest ih =>
      intro s hm
      have hse : scriptEvents (r :: rest)
          = DemoEvent.roundStart true r.startTick r.startCT r.startT []
            :: DemoEvent.roundEnd r.endWinner r.endCT r.endT
            :: scriptEvents rest := by
        simp [scriptEvents]
      rw [hse, List.foldl_cons, List.foldl_cons]
      have hm1 : (step s (DemoEvent.roundStart true r.startTick r.startCT
          r.startT [])).matchStarted = true := by
        rw [step_roundStart_started s hm]; exact hm
      have hm2 : (step (step s (DemoEvent.roundStart true r.startTick
          r.startCT r.startT []))
          (DemoEvent.roundEnd r.endWinner r.endCT r.endT)).matchStarted
          = true := by
        rw [step_roundEnd_eq _ r.endWinner r.endCT r.endT hm1]; exact hm1
      rw [ih _ hm2]
      rw [step_roundEnd_eq _ r.endWinner r.endCT r.endT hm1,
        step_roundStart_started s hm]
      simp only [updateLastRound_append_singleton, List.map_append,
        List.map_cons, List.map_nil, List.append_assoc,
        List.singleton_append]
      congr 1
      rw [List.cons.injEq]
      constructor
      · show r.endCT - s.baseCTScore + (r.endT - s.baseTScore)
          = r.endCT + r.endT - (s.baseCTScore + s.baseTScore)
        ring
      · rfl

/-- C5 (amended): every accepted round-start creates its record with
`ct_score = t_score = 0` (sum 0 at creation, first round included); and
over a match-started strictly alternating start/end stream, recorded
sums are `raw end sum - baseline sum`, hence monotonically non-decreasing
whenever the decoder's raw score sums at round ends are non-decreasing.
(The first round's recorded sum after its round-end is its raw sum minus
baseline - not 0, as `round_score_sum_cex` shows.) -/
theorem round_score_sum_amended :
    (∀ s tick c1 c2 ps, ∃ rec : RoundData,
        (step s (DemoEvent.roundStart true tick c1 c2 ps)).rounds
            = s.rounds ++ [rec]
          ∧ rec.ctScore = 0 ∧ rec.tScore = 0)
      ∧ (∀ (first : RoundScript) (rest : List RoundScript),
          List.Pairwise (· ≤ ·)
            ((first :: rest).map (fun r => r.endCT + r.endT)) →
          List.Pairwise (· ≤ ·)
            ((run (scriptEvents (first :: rest))).rounds.map
              (fun r => r.ctScore + r.tScore))) := by
  constructor
  · intro s tick c1 c2 ps
    simp only [step]
    rw [if_neg (by simp)]
    split
    · exact ⟨_, rfl, rfl, rfl⟩
    · split
      · exact ⟨_, rfl, rfl, rfl⟩
      · exact ⟨_, rfl, rfl, rfl⟩
  · intro first rest hp
    have hse : scriptEvents (first :: rest)
        = DemoEvent.roundStart true first.startTick first.startCT first.startT []
          :: DemoEvent.roundEnd first.endWinner first.endCT first.endT
          :: scriptEvents rest := by
      simp [scriptEvents]
    have hs1 : step initState
        (DemoEvent.roundStart true first.startTick first.startCT first.startT [])
        = { initState with
            matchStarted := true
            matchStartTick := first.startTick
            baseCTScore := first.startCT
            baseTScore := first.startT
            ctScore := 0
            tScore := 0
            rosterBuilt := true
            rounds := [{ number := 1, tick := first.startTick, ctScore := 0
                         tScore := 0, winningTeam := "", freezeTimeTick := 0 }]
            activeEffects := []
            isBombPlanted := false } := rfl
    rw [show run (scriptEvents (first :: rest))
        = (scriptEvents rest).foldl step
            (step (step initState
              (DemoEvent.roundStart true first.startTick first.startCT
                first.startT []))
              (DemoEvent.roundEnd first.endWinner first.endCT first.endT))
      from by rw [hse]; rfl]
    rw [hs1, step_roundEnd_eq _ _ _ _ (by rfl)]
    rw [run_script_aux rest _ (by rfl)]
    simp only [updateLastRound, List.map_cons, List.map_nil,
      List.singleton_append]
    rw [List.pairwise_cons]
    constructor
    · intro b hb
      obtain ⟨rr, hrr, hfb⟩ := List.mem_map.mp hb
      have h1 : first.endCT + first.endT ≤ rr.endCT + rr.endT :=
        (List.pairwise_cons.mp (List.pairwise_map.mp hp)).1 rr hrr
      have h2 : rr.endCT + rr.endT - (first.startCT + first.startT) = b := hfb
      show first.endCT - first.startCT + (first.endT - first.startT) ≤ b
      omega
    · rw [List.pairwise_map]
      have h2 := (List.pairwise_cons.mp (List.pairwise_map.mp hp)).2
      refine h2.imp ?_
      intro a b h
      have h1 : a.endCT + a.endT ≤ b.endCT + b.endT := h
      show a.endCT + a.endT - (first.startCT + first.startT)
          ≤ b.endCT + b.endT - (first.startCT + first.startT)
      omega

/-- Witness for `round_score_sum_amended`: a two-round alternating script
with non-decreasing raw sums 1, 2 yields non-decreasing recorded sums. -/
theorem round_score_sum_amended_wtn :
    (∃ rec : RoundData,
        (step initState (DemoEvent.roundStart true 100 0 0 [])).rounds
            = initState.rounds ++ [rec]
          ∧ rec.ctScore = 0 ∧ rec.tScore = 0)
      ∧ List.Pairwise (· ≤ ·)
          ((run (scriptEvents [⟨100, 0, 0, Team.CT, 1, 0⟩,
              ⟨200, 1, 0, Team.T, 1, 1⟩])).rounds.map
            (fun r => r.ctScore + r.tScore)) :=
  ⟨round_score_sum_amended.1 initState 100 0 0 [],
   round_score_sum_amended.2 ⟨100, 0, 0, Team.CT, 1, 0⟩
     [⟨200, 1, 0, Team.T, 1, 1⟩] (by decide)⟩

/-! ## C6: roster assignment -/

/-- Slot assignment does not touch ids outside the list. -/
theorem assignSlots_notin (m : Nat → Int) (l : List Participant) (base : Int)
    (x : Nat) (hx : x ∉ l.map (fun p => p.steamID)) :
    assignSlots m l base x = m x := by
  induction l generalizing m base with
  | nil => rfl
  | cons p t ih =>
      simp only [List.map_cons, List.mem_cons] at hx
      push_neg at hx
      simp only [assignSlots]
      rw [ih _ _ (by simpa using hx.2)]
      simp [upd, hx.1]

/-- Slot assignment sends the i-th participant of the list to base + i
(provided the ids are distinct). -/
theorem assignSlots_get (l : List Participant) :
    ∀ (m : Nat → Int) (base : Int),
      (l.map (fun p => p.steamID)).Nodup →
      ∀ i (h : i < l.length),
        assignSlots m l base (l.get ⟨i, h⟩).steamID = base + (i : Int) := by
  induction l with
  | nil => intro m base _ i h; exact absurd h (by simp)
  | cons p t ih =>
      intro m base hnd i h
      simp only [List.map_cons, List.nodup_cons] at hnd
      cases i with
      | zero =>
          show assignSlots (upd m p.steamID base) t (base + 1) p.steamID
            = base + (0 : Int)
          rw [assignSlots_notin _ _ _ _ hnd.1]
          simp [upd]
      | succ j =>
          show assignSlots (upd m p.steamID base) t (base + 1)
              (t.get ⟨j, by simpa using h⟩).steamID = base + ((j + 1 : Nat) : Int)
          rw [ih (upd m p.steamID base) (base + 1) hnd.2 j (by simpa using h)]
          push_cast
          ring

/-- Inserting by name respects per-name filters: stability of the sort. -/
theorem orderedInsert_filter_name (a : Participant) (l : List Participant)
    (n : String) :
    (List.orderedInsert (fun x y => x.name ≤ y.name) a l).filter
        (fun q => q.name = n)
      = if a.name = n then a :: l.filter (fun q => q.name = n)
        else l.filter (fun q => q.name = n) := by
  induction l with
  | nil =>
      by_cases han : a.name = n
      · rw [show List.orderedInsert (fun x y => x.name ≤ y.name) a [] = [a]
            from rfl,
          List.filter_cons_of_pos (by simpa using han), if_pos han]
      · rw [show List.orderedInsert (fun x y => x.name ≤ y.name) a [] = [a]
            from rfl,
          List.filter_cons_of_neg (by simpa using han), if_neg han]
  | cons b t ih =>
      simp only [List.orderedInsert]
      split
      · by_cases han : a.name = n
        · rw [List.filter_cons_of_pos (by simpa using han), if_pos han]
        · rw [List.filter_cons_of_neg (by simpa using han), if_neg han]
      · next hab =>
        have hbn : b.name < a.name := lt_of_not_le hab
        by_cases hb2 : b.name = n
        · have han : ¬(a.name = n) := by
            intro h
            rw [h] at hbn
            rw [hb2] at hbn
            exact lt_irrefl _ hbn
          rw [List.filter_cons_of_pos (by simpa using hb2), ih, if_neg han,
            if_neg han, List.filter_cons_of_pos (by simpa using hb2)]
        · rw [List.filter_cons_of_neg (by simpa using hb2), ih,
            List.filter_cons_of_neg (by simpa using hb2)]

/-- Stability of the name sort: participants with any given display name
keep their original relative order. -/
theorem sortByName_filter_name (l : List Participant) (n : String) :
    (sortByName l).filter (fun q => q.name = n)
      = l.filter (fun q => q.name = n) := by
  induction l with
  | nil => rfl
  | cons a t ih =>
      show (List.orderedInsert _ a (List.insertionSort _ t)).filter _ = _
      rw [orderedInsert_filter_name]
      have ih' : (List.insertionSort (fun x y => x.name ≤ y.name) t).filter
          (fun q => q.name = n) = t.filter (fun q => q.name = n) := ih
      by_cases han : a.name = n
      · rw [if_pos han, ih', List.filter_cons_of_pos (by simpa using han)]
      · rw [if_neg han, ih', List.filter_cons_of_neg (by simpa using han)]

/-- Sorted output of the name sort. -/
theorem sortByName_sorted (l : List Participant) :
    List.Pairwise (fun a b => a.name ≤ b.name) (sortByName l) := by
  haveI h1 : IsTotal Participant (fun a b => a.name ≤ b.name) :=
    ⟨fun a b => le_total a.name b.name⟩
  haveI h2 : IsTrans Participant (fun a b => a.name ≤ b.name) :=
    ⟨fun a b c hab hbc => le_trans hab hbc⟩
  exact List.sorted_insertionSort _ l

/-- The name sort is a permutation of its input. -/
theorem sortByName_perm (l : List Participant) : List.Perm (sortByName l) l :=
  List.perm_insertionSort _ l

/-- Once the roster is built, no later event changes the mapping or the
flag. -/
theorem step_rosterBuilt_preserved (s : ParserState) (e : DemoEvent)
    (h : s.rosterBuilt = true) :
    (step s e).rosterMap = s.rosterMap ∧ (step s e).rosterBuilt = true := by
  cases e with
  | weaponFire sh w => rcases sh with _ | sid <;> simp [step, h]
  | smokeExpired en tick => rcases en with _ | eid <;> simp [step, h]
  | fireGrenadeExpired en tick =>
      rcases en with _ | eid <;> simp [step, h]
  | roundStart ims tick c1 c2 ps =>
      rcases Bool.eq_false_or_eq_true ims with hi | hi <;> subst hi
      · rcases Bool.eq_false_or_eq_true s.matchStarted with hms | hms <;>
          simp [step, hms, h]
      · simp [step, h]
  | frameDone tick pl b pr =>
      simp only [step]; split <;> simp [h]
  | _ => simp [step, h]

/-- The RoundStart handler that confirms the match start: captures the
baselines, builds the roster (CT sorted by name from slot 1, T from slot
6), appends the first round record and resets the round state. -/
theorem step_roundStart_confirm (s : ParserState) (hm : s.matchStarted = false)
    (hrb : s.rosterBuilt = false) (tick c1 c2 : Int) (ps : List Participant) :
    step s (DemoEvent.roundStart true tick c1 c2 ps)
      = { s with
          matchStarted := true
          matchStartTick := tick
          baseCTScore := c1
          baseTScore := c2
          ctScore := 0
          tScore := 0
          rosterMap := assignSlots (assignSlots s.rosterMap
            (sortByName (ps.filter (fun p => p.team = Team.CT))) 1)
            (sortByName (ps.filter (fun p => p.team = Team.T))) 6
          rosterBuilt := true
          rounds := s.rounds ++
            [{ number := (s.rounds.length : Int) + 1, tick := tick
               ctScore := 0, tScore := 0, winningTeam := ""
               freezeTimeTick := 0 }]
          activeEffects := []
          isBombPlanted := false } := by
  simp [step, hm, hrb, sortByName]

/-- C6: roster assignment at match-start confirmation.  With at most five
participants per side and distinct ids: the CT team, sorted ascending by
display name (stably: equal names keep their original order), receives
slots 1..5 in sorted order and the T team slots 6..10; participants never
assigned read the sentinel 0; and once built the mapping is never
recomputed or changed. -/
theorem roster_assignment (p : List DemoEvent) (tick c1 c2 : Int)
    (ps : List Participant)
    (hns : (run p).matchStarted = false)
    (hnd : (ps.map (fun q => q.steamID)).Nodup)
    (hct : (ps.filter (fun q => q.team = Team.CT)).length ≤ 5)
    (ht : (ps.filter (fun q => q.team = Team.T)).length ≤ 5) :
    (∀ i (h : i <
        (sortByName (ps.filter (fun q => q.team = Team.CT))).length),
      (run (p ++ [DemoEvent.roundStart true tick c1 c2 ps])).rosterMap
          ((sortByName (ps.filter (fun q => q.team = Team.CT))).get
            ⟨i, h⟩).steamID = 1 + (i : Int))
    ∧ (∀ i (h : i <
          (sortByName (ps.filter (fun q => q.team = Team.T))).length),
        (run (p ++ [DemoEvent.roundStart true tick c1 c2 ps])).rosterMap
            ((sortByName (ps.filter (fun q => q.team = Team.T))).get
              ⟨i, h⟩).steamID = 6 + (i : Int))
    ∧ (∀ q ∈ ps, q.team = Team.CT →
        1 ≤ (run (p ++ [DemoEvent.roundStart true tick c1 c2
              ps])).rosterMap q.steamID
          ∧ (run (p ++ [DemoEvent.roundStart true tick c1 c2
              ps])).rosterMap q.steamID ≤ 5)
    ∧ (∀ q ∈ ps, q.team = Team.T →
        6 ≤ (run (p ++ [DemoEvent.roundStart true tick c1 c2
              ps])).rosterMap q.steamID
          ∧ (run (p ++ [DemoEvent.roundStart true tick c1 c2
              ps])).rosterMap q.steamID ≤ 10)
    ∧ (∀ x, x ∉ ps.map (fun q => q.steamID) →
        (run (p ++ [DemoEvent.roundStart true tick c1 c2 ps])).rosterMap x
          = 0)
    ∧ List.Pairwise (fun a b => a.name ≤ b.name)
        (sortByName (ps.filter (fun q => q.team = Team.CT)))
    ∧ List.Pairwise (fun a b => a.name ≤ b.name)
        (sortByName (ps.filter (fun q => q.team = Team.T)))
    ∧ List.Perm (sortByName (ps.filter (fun q => q.team = Team.CT)))
        (ps.filter (fun q => q.team = Team.CT))
    ∧ List.Perm (sortByName (ps.filter (fun q => q.team = Team.T)))
        (ps.filter (fun q => q.team = Team.T))
    ∧ (∀ n, (sortByName (ps.filter (fun q => q.team = Team.CT))).filter
          (fun q => q.name = n)
        = (ps.filter (fun q => q.team = Team.CT)).filter
            (fun q => q.name = n))
    ∧ (∀ n, (sortByName (ps.filter (fun q => q.team = Team.T))).filter
          (fun q => q.name = n)
        = (ps.filter (fun q => q.team = Team.T)).filter
            (fun q => q.name = n))
    ∧ (run (p ++ [DemoEvent.roundStart true tick c1 c2 ps])).rosterBuilt
        = true
    ∧ (∀ s e, s.rosterBuilt = true →
        (step s e).rosterMap = s.rosterMap
          ∧ (step s e).rosterBuilt = true) := by
  obtain ⟨hrounds0, hct0, ht0, hrb0, hrm0⟩ := notStarted_inv p hns
  have hrun : run (p ++ [DemoEvent.roundStart true tick c1 c2 ps])
      = step (run p) (DemoEvent.roundStart true tick c1 c2 ps) := by
    rw [run_append]; rfl
  have hconfirm := step_roundStart_confirm (run p) hns hrb0 tick c1 c2 ps
  have hmap : (run (p ++ [DemoEvent.roundStart true tick c1 c2 ps])).rosterMap
      = assignSlots (assignSlots (fun _ => 0)
          (sortByName (ps.filter (fun q => q.team = Team.CT))) 1)
          (sortByName (ps.filter (fun q => q.team = Team.T))) 6 := by
    rw [hrun, hconfirm]
    show assignSlots (assignSlots (run p).rosterMap _ 1) _ 6 = _
    rw [hrm0]
  have hctnd : ((ps.filter (fun q => q.team = Team.CT)).map
      (fun q => q.steamID)).Nodup :=
    List.Nodup.sublist ((List.filter_sublist ps).map _) hnd
  have htnd : ((ps.filter (fun q => q.team = Team.T)).map
      (fun q => q.steamID)).Nodup :=
    List.Nodup.sublist ((List.filter_sublist ps).map _) hnd
  have hctSnd : ((sortByName (ps.filter (fun q => q.team = Team.CT))).map
      (fun q => q.steamID)).Nodup :=
    (((sortByName_perm _).map _).nodup_iff).mpr hctnd
  have htSnd : ((sortByName (ps.filter (fun q => q.team = Team.T))).map
      (fun q => q.steamID)).Nodup :=
    (((sortByName_perm _).map _).nodup_iff).mpr htnd
  have hdisj : ∀ y, y ∈ (ps.filter (fun q => q.team = Team.CT)).map
      (fun q => q.steamID) →
      y ∉ (ps.filter (fun q => q.team = Team.T)).map
        (fun q => q.steamID) := by
    intro y h1 h2
    obtain ⟨q1, hq1, hq1e⟩ := List.mem_map.mp h1
    obtain ⟨q2, hq2, hq2e⟩ := List.mem_map.mp h2
    have hq1f := List.mem_filter.mp hq1
    have hq2f := List.mem_filter.mp hq2
    have e1 : q1.team = Team.CT := by simpa using hq1f.2
    have e2 : q2.team = Team.T := by simpa using hq2f.2
    have heq : q1 = q2 := List.inj_on_of_nodup_map hnd hq1f.1 hq2f.1
      (by rw [hq1e, hq2e])
    rw [heq, e2] at e1
    exact absurd e1 (by simp)
  have hmemCT : ∀ y, y ∈ (sortByName (ps.filter
      (fun q => q.team = Team.CT))).map (fun q => q.steamID) ↔
      y ∈ (ps.filter (fun q => q.team = Team.CT)).map
        (fun q => q.steamID) :=
    fun y => ((sortByName_perm _).map _).mem_iff
  have hmemT : ∀ y, y ∈ (sortByName (ps.filter
      (fun q => q.team = Team.T))).map (fun q => q.steamID) ↔
      y ∈ (ps.filter (fun q => q.team = Team.T)).map
        (fun q => q.steamID) :=
    fun y => ((sortByName_perm _).map _).mem_iff
  have partA : ∀ i (h : i <
      (sortByName (ps.filter (fun q => q.team = Team.CT))).length),
      (run (p ++ [DemoEvent.roundStart true tick c1 c2 ps])).rosterMap
          ((sortByName (ps.filter (fun q => q.team = Team.CT))).get
            ⟨i, h⟩).steamID = 1 + (i : Int) := by
    intro i h
    rw [hmap]
    rw [assignSlots_notin _ _ _ _ (fun hmem => hdisj _
      ((hmemCT _).mp (List.mem_map.mpr
        ⟨_, List.get_mem _ _ _, rfl⟩)) ((hmemT _).mp hmem))]
    exact assignSlots_get _ _ 1 hctSnd i h
  have partB : ∀ i (h : i <
      (sortByName (ps.filter (fun q => q.team = Team.T))).length),
      (run (p ++ [DemoEvent.roundStart true tick c1 c2 ps])).rosterMap
          ((sortByName (ps.filter (fun q => q.team = Team.T))).get
            ⟨i, h⟩).steamID = 6 + (i : Int) := by
    intro i h
    rw [hmap]
    exact assignSlots_get _ _ 6 htSnd i h
  have hlenCT : (sortByName (ps.filter
      (fun q => q.team = Team.CT))).length
      = (ps.filter (fun q => q.team = Team.CT)).length :=
    (sortByName_perm _).length_eq
  have hlenT : (sortByName (ps.filter (fun q => q.team = Team.T))).length
      = (ps.filter (fun q => q.team = Team.T)).length :=
    (sortByName_perm _).length_eq
  refine ⟨partA, partB, ?_, ?_, ?_, sortByName_sorted _, sortByName_sorted _,
    sortByName_perm _, sortByName_perm _, sortByName_filter_name _,
    sortByName_filter_name _, ?_, step_rosterBuilt_preserved⟩
  · intro q hq hteam
    have hqf : q ∈ ps.filter (fun q => q.team = Team.CT) :=
      List.mem_filter.mpr ⟨hq, by simp [hteam]⟩
    have hqs : q ∈ sortByName (ps.filter (fun q => q.team = Team.CT)) :=
      ((sortByName_perm _).mem_iff).mpr hqf
    obtain ⟨⟨i, hi⟩, hgeti⟩ := List.mem_iff_get.mp hqs
    have hval := partA i hi
    rw [hgeti] at hval
    rw [hval]
    have : i < 5 := by omega
    omega
  · intro q hq hteam
    have hqf : q ∈ ps.filter (fun q => q.team = Team.T) :=
      List.mem_filter.mpr ⟨hq, by simp [hteam]⟩
    have hqs : q ∈ sortByName (ps.filter (fun q => q.team = Team.T)) :=
      ((sortByName_perm _).mem_iff).mpr hqf
    obtain ⟨⟨i, hi⟩, hgeti⟩ := List.mem_iff_get.mp hqs
    have hval := partB i hi
    rw [hgeti] at hval
    rw [hval]
    have : i < 5 := by omega
    omega
  · intro x hx
    have hx1 : x ∉ (sortByName (ps.filter
        (fun q => q.team = Team.CT))).map (fun q => q.steamID) := by
      intro hmem
      exact hx (((List.filter_sublist ps).map _).mem ((hmemCT x).mp hmem))
    have hx2 : x ∉ (sortByName (ps.filter
        (fun q => q.team = Team.T))).map (fun q => q.steamID) := by
      intro hmem
      exact hx (((List.filter_sublist ps).map _).mem ((hmemT x).mp hmem))
    rw [hmap, assignSlots_notin _ _ _ _ hx2, assignSlots_notin _ _ _ _ hx1]
  · rw [hrun, hconfirm]

/-- Witness for `roster_assignment` on a concrete 3v2 roster with a
duplicated CT name: the second CT in stable name order gets slot 2, and
an unknown id reads the sentinel 0. -/
theorem roster_assignment_wtn :
    (run ([] ++ [DemoEvent.roundStart true 100 0 0
          wtnParticipants])).rosterMap
        ((sortByName (wtnParticipants.filter
            (fun q => q.team = Team.CT))).get
          ⟨1, by rw [(sortByName_perm _).length_eq]; decide⟩).steamID
        = 1 + (1 : Int)
      ∧ (run ([] ++ [DemoEvent.roundStart true 100 0 0
            wtnParticipants])).rosterMap 99 = 0 :=
  ⟨(roster_assignment [] 100 0 0 wtnParticipants rfl (by decide) (by decide)
      (by decide)).1 1 (by rw [(sortByName_perm _).length_eq]; decide),
   (roster_assignment [] 100 0 0 wtnParticipants rfl (by decide) (by decide)
      (by decide)).2.2.2.2.1 99 (by decide)⟩

/-! ## C7: window-scoped flash attribution -/

/-- A fold of maps never changes the list length. -/
theorem foldl_map_length {β γ : Type} (h : γ → β → β) :
    ∀ (g : List γ) (l : List β),
      (g.foldl (fun acc i => acc.map (h i)) l).length = l.length
  | [], _ => rfl
  | i :: g, l => by
      rw [List.foldl_cons, foldl_map_length h g, List.length_map]

/-- The pipeline's pending-flash-id set coincides with the spec-side
recomputation: exactly the flash effects opened since the last emitted
frame, cleared only at frame emission. -/
theorem run_pending_spec (evs : List DemoEvent) :
    ((run evs).effectIDCounter, (run evs).currentTickCount,
        (run evs).currentTickFlashIDs)
      = evs.foldl pendingSpecStep (0, 0, []) := by
  have key : ∀ (l : List DemoEvent) (s : ParserState)
      (acc : Int × Int × List Int),
      (s.effectIDCounter, s.currentTickCount, s.currentTickFlashIDs) = acc →
      ((l.foldl step s).effectIDCounter, (l.foldl step s).currentTickCount,
          (l.foldl step s).currentTickFlashIDs)
        = l.foldl pendingSpecStep acc := by
    intro l
    induction l with
    | nil => intro s acc h; exact h
    | cons e t ih =>
        intro s acc h
        subst h
        apply ih
        cases e with
        | weaponFire sh w => rcases sh with _ | sid <;> rfl
        | smokeExpired en tick => rcases en with _ | eid <;> rfl
        | fireGrenadeExpired en tick => rcases en with _ | eid <;> rfl
        | roundStart ims tick c1 c2 ps =>
            show _ = (s.effectIDCounter, s.currentTickCount,
              s.currentTickFlashIDs)
            simp only [step]
            split
            · rfl
            · split
              · rfl
              · split <;> rfl
        | frameDone tick pl b pr =>
            show _ = if (s.currentTickCount + 1) % tickSkip ≠ 0 then _ else _
            simp only [step]
            by_cases hc : (s.currentTickCount + 1) % tickSkip ≠ 0
            · rw [if_pos hc, if_pos hc]
            · rw [if_neg hc, if_neg hc]
        | _ => rfl
  exact key evs initState (0, 0, []) rfl

/-- The pending ids are distinct and bounded by the id counter. -/
theorem run_pending_nodup (evs : List DemoEvent) :
    (run evs).currentTickFlashIDs.Nodup
      ∧ ∀ x ∈ (run evs).currentTickFlashIDs,
          x ≤ (run evs).effectIDCounter := by
  have key : ∀ (l : List DemoEvent) (s : ParserState),
      (s.currentTickFlashIDs.Nodup
        ∧ ∀ x ∈ s.currentTickFlashIDs, x ≤ s.effectIDCounter) →
      ((l.foldl step s).currentTickFlashIDs.Nodup
        ∧ ∀ x ∈ (l.foldl step s).currentTickFlashIDs,
            x ≤ (l.foldl step s).effectIDCounter) := by
    refine foldl_inv ?_
    intro s e hs
    obtain ⟨hnd, hbd⟩ := hs
    cases e with
    | flashExplode x y z tick =>
        constructor
        · show (s.currentTickFlashIDs ++ [s.effectIDCounter + 1]).Nodup
          rw [List.nodup_append]
          refine ⟨hnd, List.nodup_singleton _, ?_⟩
          intro a ha hb
          rw [List.mem_singleton] at hb
          have := hbd a ha
          omega
        · show ∀ x ∈ s.currentTickFlashIDs ++ [s.effectIDCounter + 1],
            x ≤ s.effectIDCounter + 1
          intro x hx
          rcases List.mem_append.mp hx with hx | hx
          · have := hbd x hx; omega
          · rw [List.mem_singleton.mp hx]
    | weaponFire sh w =>
        rcases sh with _ | sid <;> exact ⟨hnd, hbd⟩
    | smokeExpired en tick => rcases en with _ | eid <;> exact ⟨hnd, hbd⟩
    | fireGrenadeExpired en tick =>
        rcases en with _ | eid <;> exact ⟨hnd, hbd⟩
    | smokeStart en x y z tick =>
        exact ⟨hnd, fun x hx => by have := hbd x hx; show x ≤ _ + 1; omega⟩
    | fireGrenadeStart en x y z tick =>
        exact ⟨hnd, fun x hx => by have := hbd x hx; show x ≤ _ + 1; omega⟩
    | heExplode x y z tick =>
        exact ⟨hnd, fun x hx => by have := hbd x hx; show x ≤ _ + 1; omega⟩
    | roundStart ims tick c1 c2 ps =>
        rcases Bool.eq_false_or_eq_true ims with hi | hi <;> subst hi
        · have hp : (step s (DemoEvent.roundStart true tick c1 c2
                ps)).currentTickFlashIDs = s.currentTickFlashIDs
              ∧ (step s (DemoEvent.roundStart true tick c1 c2
                ps)).effectIDCounter = s.effectIDCounter := by
            simp only [step]
            rw [if_neg (by simp)]
            constructor
            · split
              · rfl
              · split <;> rfl
            · split
              · rfl
              · split <;> rfl
          rw [hp.1, hp.2]
          exact ⟨hnd, hbd⟩
        · exact ⟨hnd, hbd⟩
    | frameDone tick pl b pr =>
        simp only [step]
        by_cases hc : (s.currentTickCount + 1) % tickSkip ≠ 0
        · rw [if_pos hc]; exact ⟨hnd, hbd⟩
        · rw [if_neg hc]
          refine ⟨List.nodup_nil, ?_⟩
          intro x hx
          exact absurd (show x ∈ ([] : List Int) from hx)
            (List.not_mem_nil x)
    | _ => exact ⟨hnd, hbd⟩
  refine key evs initState ⟨List.nodup_nil, ?_⟩
  intro x hx
  exact absurd (show x ∈ ([] : List Int) from hx) (List.not_mem_nil x)

/-- Indexing through a map. -/
theorem get_map_index {α β : Type} (f : α → β) (l : List α) (i : ℕ)
    (h1 : i < (l.map f).length) (h2 : i < l.length) :
    (l.map f).get ⟨i, h1⟩ = f (l.get ⟨i, h2⟩) := by
  simp [List.get_eq_getElem, List.getElem_map]

/-- The PlayerFlashed fold bumps exactly the effects whose id is in the
(duplicate-free) pending set. -/
theorem flashFold_get (team : Team) :
    ∀ (ids : List Int), ids.Nodup → ∀ (effs : List GrenadeEffect)
      (i : ℕ)
      (h1 : i < (ids.foldl (fun acc fid => acc.map (fun eff =>
        if eff.id = fid then
          if team = Team.CT then { eff with flashedCT := eff.flashedCT + 1 }
          else if team = Team.T then { eff with flashedT := eff.flashedT + 1 }
          else eff
        else eff)) effs).length)
      (h2 : i < effs.length),
      (ids.foldl (fun acc fid => acc.map (fun eff =>
        if eff.id = fid then
          if team = Team.CT then { eff with flashedCT := eff.flashedCT + 1 }
          else if team = Team.T then { eff with flashedT := eff.flashedT + 1 }
          else eff
        else eff)) effs).get ⟨i, h1⟩
        = (if (effs.get ⟨i, h2⟩).id ∈ ids then
            (if team = Team.CT then
              { effs.get ⟨i, h2⟩ with
                flashedCT := (effs.get ⟨i, h2⟩).flashedCT + 1 }
            else if team = Team.T then
              { effs.get ⟨i, h2⟩ with
                flashedT := (effs.get ⟨i, h2⟩).flashedT + 1 }
            else effs.get ⟨i, h2⟩)
          else effs.get ⟨i, h2⟩) := by
  intro ids
  induction ids with
  | nil =>
      intro _ effs i h1 h2
      simp
  | cons fid rest ih =>
      intro hnd effs i h1 h2
      rw [List.nodup_cons] at hnd
      have hlen : i < (effs.map (fun eff =>
          if eff.id = fid then
            if team = Team.CT then { eff with flashedCT := eff.flashedCT + 1 }
            else if team = Team.T then { eff with flashedT := eff.flashedT + 1 }
            else eff
          else eff)).length := by
        rw [List.length_map]; exact h2
      have h1a : i < (rest.foldl (fun acc fid2 => acc.map (fun eff =>
          if eff.id = fid2 then
            if team = Team.CT then { eff with flashedCT := eff.flashedCT + 1 }
            else if team = Team.T then { eff with flashedT := eff.flashedT + 1 }
            else eff
          else eff))
          (effs.map (fun eff =>
          if eff.id = fid then
            if team = Team.CT then { eff with flashedCT := eff.flashedCT + 1 }
            else if team = Team.T then { eff with flashedT := eff.flashedT + 1 }
            else eff
          else eff))).length := by
        rwa [List.foldl_cons] at h1
      have hstep : ((fid :: rest).foldl (fun acc fid2 => acc.map (fun eff =>
          if eff.id = fid2 then
            if team = Team.CT then { eff with flashedCT := eff.flashedCT + 1 }
            else if team = Team.T then { eff with flashedT := eff.flashedT + 1 }
            else eff
          else eff)) effs).get ⟨i, h1⟩
          = (rest.foldl (fun acc fid2 => acc.map (fun eff =>
          if eff.id = fid2 then
            if team = Team.CT then { eff with flashedCT := eff.flashedCT + 1 }
            else if team = Team.T then { eff with flashedT := eff.flashedT + 1 }
            else eff
          else eff))
              (effs.map (fun eff =>
          if eff.id = fid then
            if team = Team.CT then { eff with flashedCT := eff.flashedCT + 1 }
            else if team = Team.T then { eff with flashedT := eff.flashedT + 1 }
            else eff
          else eff))).get ⟨i, h1a⟩ := rfl
      rw [hstep, ih hnd.2 _ i h1a hlen]
      rw [get_map_index _ effs i hlen h2]
      by_cases hid : (effs.get ⟨i, h2⟩).id = fid
      · have hnotin : (effs.get ⟨i, h2⟩).id ∉ rest := by
          rw [hid]; exact hnd.1
        rw [if_pos hid]
        have hidpres : (if team = Team.CT then
            { effs.get ⟨i, h2⟩ with
              flashedCT := (effs.get ⟨i, h2⟩).flashedCT + 1 }
          else if team = Team.T then
            { effs.get ⟨i, h2⟩ with
              flashedT := (effs.get ⟨i, h2⟩).flashedT + 1 }
          else effs.get ⟨i, h2⟩).id = (effs.get ⟨i, h2⟩).id := by
          split_ifs <;> rfl
        rw [hidpres, if_neg hnotin,
          if_pos (show (effs.get ⟨i, h2⟩).id ∈ fid :: rest from
            hid ▸ List.mem_cons_self fid rest)]
      · rw [if_neg hid]
        by_cases hmem : (effs.get ⟨i, h2⟩).id ∈ rest
        · rw [if_pos hmem, if_pos (List.mem_cons_of_mem fid hmem)]
        · rw [if_neg hmem,
            if_neg (show ¬((effs.get ⟨i, h2⟩).id ∈ fid :: rest) from by
              intro hc
              rcases List.mem_cons.mp hc with hc | hc
              exacts [hid hc, hmem hc])]

/-- C7: a blind event increments the appropriate team counter on exactly
the active effect records whose id lies in the pending-flash-id set; that
set is exactly the ids of flash effects opened since the last emitted
frame (cleared only at frame emission) and is duplicate-free, so each
pending flash receives one credit per blind event in the window. -/
theorem flash_attribution :
    (∀ evs, (run evs).currentTickFlashIDs
        = (evs.foldl pendingSpecStep (0, 0, [])).2.2)
      ∧ (∀ evs, (run evs).currentTickFlashIDs.Nodup)
      ∧ (∀ s team, s.currentTickFlashIDs.Nodup →
          ((step s (DemoEvent.playerFlashed team)).activeEffects.length
              = s.activeEffects.length)
            ∧ ∀ i (h1 : i < (step s
                  (DemoEvent.playerFlashed team)).activeEffects.length)
                (h2 : i < s.activeEffects.length),
                (step s (DemoEvent.playerFlashed team)).activeEffects.get
                    ⟨i, h1⟩
                  = (if (s.activeEffects.get ⟨i, h2⟩).id
                        ∈ s.currentTickFlashIDs then
                      (if team = Team.CT then
                        { s.activeEffects.get ⟨i, h2⟩ with
                          flashedCT :=
                            (s.activeEffects.get ⟨i, h2⟩).flashedCT + 1 }
                      else if team = Team.T then
                        { s.activeEffects.get ⟨i, h2⟩ with
                          flashedT :=
                            (s.activeEffects.get ⟨i, h2⟩).flashedT + 1 }
                      else s.activeEffects.get ⟨i, h2⟩)
                    else s.activeEffects.get ⟨i, h2⟩)) := by
  refine ⟨?_, ?_, ?_⟩
  · intro evs
    have h := run_pending_spec evs
    have := congrArg (fun t => t.2.2) h
    simpa using this
  · intro evs
    exact (run_pending_nodup evs).1
  · intro s team hnd
    constructor
    · exact foldl_map_length _ s.currentTickFlashIDs s.activeEffects
    · intro i h1 h2
      exact flashFold_get team s.currentTickFlashIDs hnd s.activeEffects i
        h1 h2

/-- Witness for `flash_attribution`: two flashes opened in one window are
both pending, and a CT blind event processed on that state preserves the
effect count (bumping counters in place). -/
theorem flash_attribution_wtn :
    ((run [DemoEvent.flashExplode 0 0 0 50,
        DemoEvent.flashExplode 0 0 0 52]).currentTickFlashIDs
      = ([DemoEvent.flashExplode 0 0 0 50,
          DemoEvent.flashExplode 0 0 0 52].foldl pendingSpecStep
          (0, 0, [])).2.2)
    ∧ (step (run [DemoEvent.flashExplode 0 0 0 50,
          DemoEvent.flashExplode 0 0 0 52])
        (DemoEvent.playerFlashed Team.CT)).activeEffects.length
      = (run [DemoEvent.flashExplode 0 0 0 50,
          DemoEvent.flashExplode 0 0 0 52]).activeEffects.length :=
  ⟨flash_attribution.1 _,
   (flash_attribution.2.2 _ Team.CT (by decide)).1⟩

end CS2Viewer
